import Mathlib

/-!
# Verification of the roguelike engine core

A shallow embedding of the game's core (components, scheduler, combat,
actions, field of view) translated from the Python source, together with
theorems settling a list of claims about it.

Conventions of the embedding:
* Python `int` is `ℤ`, Python `float` is `ℚ` (float literals such as `.25`,
  `1.5` become exact rationals; `.33`/`.66` become `33/100`/`66/100`).
* `int(x)` on a float is truncation toward zero, `pyInt`.
* `tcod.ecs` components are optional fields of `EntityC`; a component key is
  the Python pair `(name, type)`, so `AttackSpeed = ("Speed", float)` and
  `MoveSpeed = ("Speed", float)` are one and the same slot (`speedFloat`),
  while `Speed = ("Speed", int)` is the distinct slot `speedInt`.
* The registry is an association list of entities plus maps, message log and
  the RNG; `random.Random` is modelled as a stream of pre-drawn numbers.
* Paths on which the Python source raises an uncaught exception (failed
  tuple unpack, `KeyError`, assertion) are marked with the `ActionResult.err`
  result or return the state unchanged; they are unreachable under the
  hypotheses of the theorems below.
-/

namespace Rogue

/-- Truncation toward zero of a rational, Python `int(x)`:
`Int.tdiv` truncates toward zero, matching CPython's `int()`. -/
def pyInt (q : ℚ) : ℤ := q.num.tdiv q.den

theorem pyInt_intCast (n : ℤ) : pyInt (n : ℚ) = n := by
  simp [pyInt, Int.tdiv_one]

theorem pyInt_eq_floor_of_nonneg (q : ℚ) (h : 0 ≤ q) : pyInt q = ⌊q⌋ := by
  rw [pyInt, Int.tdiv_eq_ediv (Rat.num_nonneg.mpr h) (by positivity), Rat.floor_def]

theorem pyInt_mono_of_nonneg {q r : ℚ} (h0 : 0 ≤ q) (h : q ≤ r) :
    pyInt q ≤ pyInt r := by
  rw [pyInt_eq_floor_of_nonneg q h0, pyInt_eq_floor_of_nonneg r (le_trans h0 h)]
  exact Int.floor_le_floor h

theorem one_le_pyInt_of_one_le {q : ℚ} (h : 1 ≤ q) : 1 ≤ pyInt q := by
  have := pyInt_eq_floor_of_nonneg q (le_trans zero_le_one h)
  rw [this]
  exact_mod_cast Int.le_floor.mpr (by exact_mod_cast h)

/-! ## Enumerations (`combat_types.py`, `constants.py`) -/

/-- `combat_types.py` `DamageType`. -/
inductive DmgType
  | physical
  | poisonT
  | fire
deriving DecidableEq

/-- `combat_types.py` `ResistanceLevel`. -/
inductive ResLevel
  | weak       -- 50% more damage
  | nores      -- 100% damage (default, `NONE`)
  | moderate   -- 33% less damage
  | high       -- 66% less damage
  | immune     -- no damage
  | healed     -- 33% healing
deriving DecidableEq

/-- `combat_types.py` `DamageResistance`. -/
structure DmgResistance where
  damage_type : DmgType
  resistance : ResLevel
deriving DecidableEq

/-- `constants.py` `TraitTarget`. -/
inductive TTarget
  | selfT
  | enemyT
deriving DecidableEq

/-- `constants.py` `TraitActivation`. -/
inductive TActivation
  | onCreate
  | onAttack
  | onDefend
deriving DecidableEq

/-- `constants.py` `DEFAULT_ACTION_COST = 100`. -/
def DEFAULT_ACTION_COST : ℤ := 100

/-! ## RNG and dice (`dice.py`; `random.Random` is external) -/

/-- The shared `random.Random` instance, modelled as a stream of pre-drawn
natural numbers; each draw consumes one entry. -/
structure Rng where
  rolls : List ℕ
deriving DecidableEq

/-- One `rng.randint(1, sides)` draw: consumes the head of the stream and
maps it into `[1, sides]`. An exhausted stream yields 1. -/
def rngNext (sides : ℕ) (rng : Rng) : ℕ × Rng :=
  match rng.rolls with
  | [] => (1, ⟨[]⟩)
  | x :: rest => (1 + x % sides, ⟨rest⟩)

/-- `dice.roll(num, sides)`: sum of `num` draws of `randint(1, sides)`. -/
def diceRoll (num sides : ℕ) (rng : Rng) : ℤ × Rng :=
  match num with
  | 0 => (0, rng)
  | n + 1 =>
    let (v, rng1) := rngNext sides rng
    let (rest, rng2) := diceRoll n sides rng1
    ((v : ℤ) + rest, rng2)

/-- `rng.random()` (used by the loot-drop hook), modelled on a 1/100 grid:
consumes one stream entry `x` and yields `(x % 100) / 100 ∈ [0, 1)`. -/
def rngRandom (rng : Rng) : ℚ × Rng :=
  match rng.rolls with
  | [] => (0, ⟨[]⟩)
  | x :: rest => (((x % 100 : ℕ) : ℚ) / 100, ⟨rest⟩)

/-! ## Effects (`effects.py` variants) -/

/-- `effects.py`: the `Effect` component variants. -/
inductive EffectVar
  | healing (amount : ℤ)
  | regeneration (amount : ℤ)
  | poisoned (amount duration : ℤ)
deriving DecidableEq

/-! ## Actions (`actions.py` action objects chosen during a player turn) -/

/-- The actions of `actions.py` that a player turn can carry, each with its
`cost` field (`attrs` default `DEFAULT_ACTION_COST = 100`).
`takeStairs true` is `TakeStairs("down")`. -/
inductive ActionT
  | waitA (cost : ℤ)
  | move (dx dy : ℤ) (cost : ℤ)
  | melee (dx dy : ℤ) (cost : ℤ)
  | pickupItem (cost : ℤ)
  | takeStairs (down : Bool) (cost : ℤ)
deriving DecidableEq

/-- The `cost` field of an action. -/
def ActionT.cost : ActionT → ℤ
  | .waitA c => c
  | .move _ _ c => c
  | .melee _ _ c => c
  | .pickupItem c => c
  | .takeStairs _ c => c

/-! ## Positions and graphics (`components.py`) -/

/-- `components.py` `Position`: `(x, y, map)`; the map reference is a map id. -/
structure Pos where
  x : ℤ
  y : ℤ
  map : ℕ
deriving DecidableEq

/-- `Position.__add__`: offset by a direction, same map. -/
def Pos.add (p : Pos) (d : ℤ × ℤ) : Pos :=
  ⟨p.x + d.1, p.y + d.2, p.map⟩

/-- `components.py` `Graphic`: glyph and foreground color. -/
structure Graphic where
  ch : ℕ
  fg : ℕ × ℕ × ℕ
deriving DecidableEq

/-! ## Entities: the per-entity component/tag/relation record -/

/-- One entity of the `tcod.ecs` registry: its components (optional fields),
tags (`Bool` fields) and relations (`Option ℕ` entity ids).

Component keys from `components.py`; note that
`Speed = ("Speed", int)` is `speedInt` while `AttackSpeed = ("Speed", float)`
and `MoveSpeed = ("Speed", float)` are literally the same key and therefore
share the single slot `speedFloat`.

`aiActions` abstracts the `AI` component (`BaseAI` protocol of
`components.py`): the stream of actions successive `get_action` calls
return. `hasAI` is the presence of the `AI` component. -/
structure EntityC where
  name : Option String := none
  hp : Option ℤ := none
  maxHp : Option ℤ := none
  xp : Option ℤ := none
  level : Option ℤ := none
  rewardXp : Option ℤ := none
  conC : Option ℤ := none
  strC : Option ℤ := none
  dexC : Option ℤ := none
  defense : Option ℤ := none
  attack : Option (ℕ × ℕ) := none        -- `Attack` dice notation, parsed `(num, sides)`
  energy : Option ℤ := none              -- `Energy = ("Energy", int)`
  speedInt : Option ℤ := none            -- `Speed = ("Speed", int)`
  speedFloat : Option ℚ := none          -- `AttackSpeed = MoveSpeed = ("Speed", float)`
  resistances : List DmgResistance := []
  defenseBonus : Option ℤ := none
  powerBonus : Option (ℕ × ℕ) := none    -- `PowerBonus` dice notation
  lootDropChance : Option ℚ := none
  pos : Option Pos := none
  graphic : Option Graphic := none
  hasAI : Bool := false
  aiActions : List ActionT := []
  effectComp : Option EffectVar := none
  effectsApplied : List ℕ := []          -- `EffectsApplied` template entity ids
  traitActivation : Option TActivation := none
  traitTarget : Option TTarget := none
  affecting : Option ℕ := none           -- `Affecting` relation target
  carriedBy : Option ℕ := none           -- `IsIn` relation when held as an item
  mapKey : Option ℕ := none              -- `MapKey` of stairs
  delayed : Option ActionT := none       -- `DelayedAction`
  isPlayer : Bool := false
  isAlive : Bool := false
  isBlocking : Bool := false
  isItem : Bool := false
  isEffect : Bool := false
  isEffectSpawner : Bool := false
  isGhost : Bool := false
  isDownStairs : Bool := false
  isUpStairs : Bool := false
deriving DecidableEq

/-! ## Component-level functions -/

/-- `action_tools.get_entity_energy`: `components.get(Energy, 0)`. -/
def getEntityEnergy (e : EntityC) : ℤ := e.energy.getD 0

/-- `action_tools.update_entity_energy`: `setdefault(Energy, 0)` then `+= amount`. -/
def updateEntityEnergy (e : EntityC) (amount : ℤ) : EntityC :=
  { e with energy := some (e.energy.getD 0 + amount) }

/-- `action_tools.get_entity_speed`: `components.get(Speed, 0)`, the
integer-keyed `("Speed", int)` component. -/
def getEntitySpeed (e : EntityC) : ℤ := e.speedInt.getD 0

/-- `components.get(MoveSpeed, 1.0)`: reads the `("Speed", float)` slot. -/
def getMoveSpeed (e : EntityC) : ℚ := e.speedFloat.getD 1

/-- `components.get(AttackSpeed, 1.0)`: reads the same `("Speed", float)`
slot as `getMoveSpeed`, since the two keys are equal tuples. -/
def getAttackSpeed (e : EntityC) : ℚ := e.speedFloat.getD 1

/-- `entity.components[MoveSpeed] = v`: writes the `("Speed", float)` slot. -/
def setMoveSpeed (v : ℚ) (e : EntityC) : EntityC :=
  { e with speedFloat := some v }

/-- `entity.components[AttackSpeed] = v`: writes the `("Speed", float)` slot. -/
def setAttackSpeed (v : ℚ) (e : EntityC) : EntityC :=
  { e with speedFloat := some v }

/-- `action_tools.get_adjusted_action_cost`: `int(cost / move_speed)` for a
`Move`, `int(cost / attack_speed)` for a `Melee`, unadjusted otherwise. -/
def getAdjustedActionCost (e : EntityC) (a : ActionT) : ℤ :=
  match a with
  | .move _ _ c => pyInt ((c : ℚ) / getMoveSpeed e)
  | .melee _ _ c => pyInt ((c : ℚ) / getAttackSpeed e)
  | _ => a.cost

/-- `combat.heal`: returns `(actual amount restored, updated entity)`;
requires both `HP` and `MaxHP` components, else returns 0 unchanged. -/
def heal (e : EntityC) (amount : ℤ) : ℤ × EntityC :=
  match e.hp, e.maxHp with
  | some oldHp, some mh =>
    let newHp := min (oldHp + amount) mh
    (newHp - oldHp, { e with hp := some newHp })
  | _, _ => (0, e)

/-- `combat.poison`: returns `(actual amount poisoned, updated entity)`;
requires both `HP` and `MaxHP` components, else returns 0 unchanged. -/
def poison (e : EntityC) (amount : ℤ) : ℤ × EntityC :=
  match e.hp, e.maxHp with
  | some oldHp, some _ =>
    let newHp := max (oldHp - amount) 0
    (oldHp - newHp, { e with hp := some newHp })
  | _, _ => (0, e)

/-- `actor_tools.required_xp_for_level`: `100 + (Level − 1) * 150` with
`Level` defaulting to 1. -/
def requiredXpForLevel (e : EntityC) : ℤ :=
  100 + (e.level.getD 1 - 1) * 150

/-- `actor_tools.can_level_up`: `XP ≥ required_xp_for_level` with `XP`
defaulting to 0. -/
def canLevelUp (e : EntityC) : Bool :=
  requiredXpForLevel e ≤ e.xp.getD 0

/-- `actor_tools.level_up` (component part): `setdefault` `Level`/`XP`,
debit the required XP, increment `Level`. The source also asserts
`XP ≥ required_xp_for_level` and logs a message. -/
def levelUp (e : EntityC) : EntityC :=
  let e1 := { e with level := some (e.level.getD 1), xp := some (e.xp.getD 0) }
  let e2 := { e1 with xp := some (e1.xp.getD 0 - requiredXpForLevel e1) }
  { e2 with level := some (e2.level.getD 1 + 1) }

/-- `states.LevelUp.do_con_levelup` (component part): `CON += 1`,
`MaxHP += 5`, `HP += 5`, then `level_up`. -/
def doConLevelup (e : EntityC) : EntityC :=
  levelUp { e with
    conC := some (e.conC.getD 0 + 1)
    maxHp := some (e.maxHp.getD 0 + 5)
    hp := some (e.hp.getD 0 + 5) }

/-- `states.LevelUp.do_str_levelup` (component part): `STR += 1`, then
`level_up`. -/
def doStrLevelup (e : EntityC) : EntityC :=
  levelUp { e with strC := some (e.strC.getD 0 + 1) }

/-- `states.LevelUp.do_dex_levelup` (component part): `DEX += 1`, then
`level_up`. -/
def doDexLevelup (e : EntityC) : EntityC :=
  levelUp { e with dexC := some (e.dexC.getD 0 + 1) }

/-! ## Maps and the registry -/

/-- A map entity: `MapShape`, `Tiles`, `VisibleTiles`, `MemoryTiles`
(`components.py`), keyed by an id. Grids are total functions of the `(x, y)`
coordinates; only the in-bounds region is ever consulted. -/
structure MapC where
  id : ℕ
  height : ℤ
  width : ℤ
  tiles : ℤ → ℤ → ℕ
  visible : ℤ → ℤ → Bool
  memory : ℤ → ℤ → ℕ

/-- A message of the log: `(text, fg, count)` (`spec §4.N`). -/
structure Msg where
  text : String
  fg : String
  count : ℕ
deriving DecidableEq

/-- The `tcod.ecs` registry plus the world-level collaborators: the message
log, the shared RNG, the tile table `TILES` (`world/tiles.py`, data), and the
external `tcod.map.compute_fov` algorithm (`fovAlg`), which maps a
transparency grid and a point of view to a visibility grid.
`ents` is an association list `id ↦ entity`; the first entry with a given id
is the entity. `nextId` supplies fresh ids for spawned entities.
The log is stored newest-first. -/
structure Reg where
  ents : List (ℕ × EntityC)
  maps : List MapC
  messages : List Msg
  rng : Rng
  fovAlg : (ℤ → ℤ → Bool) → (ℤ × ℤ) → (ℤ → ℤ → Bool)
  tileWalkCost : ℕ → ℕ
  tileTransparent : ℕ → Bool
  tileName : ℕ → String
  nextId : ℕ

/-- Look an entity up by id. -/
def getEnt (w : Reg) (i : ℕ) : Option EntityC :=
  (w.ents.find? (fun pr => pr.1 = i)).map (fun pr => pr.2)

/-- Replace the component record of the entity `i`. -/
def modifyEnt (w : Reg) (i : ℕ) (f : EntityC → EntityC) : Reg :=
  { w with ents := w.ents.map (fun pr => if pr.1 = i then (pr.1, f pr.2) else pr) }

/-- Delete the entity `i` (`entity.clear()`). -/
def removeEnt (w : Reg) (i : ℕ) : Reg :=
  { w with ents := w.ents.filter (fun pr => pr.1 ≠ i) }

/-- Append a fresh entity, returning its id. -/
def spawnEnt (w : Reg) (e : EntityC) : ℕ × Reg :=
  (w.nextId, { w with ents := w.ents ++ [(w.nextId, e)], nextId := w.nextId + 1 })

/-- Look a map up by id. -/
def getMapC (w : Reg) (i : ℕ) : Option MapC :=
  w.maps.find? (fun m => m.id = i)

/-- Replace the map with id `m.id` by `m`. -/
def setMapC (w : Reg) (m : MapC) : Reg :=
  { w with maps := w.maps.map (fun m0 => if m0.id = m.id then m else m0) }

/-- The entity's `Position` component. -/
def getPos (w : Reg) (i : ℕ) : Option Pos :=
  (getEnt w i).bind (fun e => e.pos)

/-- The entity's `HP` component. -/
def getHp (w : Reg) (i : ℕ) : Option ℤ :=
  (getEnt w i).bind (fun e => e.hp)

/-- The entity's `Energy` component. -/
def getEnergyW (w : Reg) (i : ℕ) : Option ℤ :=
  (getEnt w i).bind (fun e => e.energy)

/-- Query `Q.all_of(tags=[IsAlive, position])`: living entities at a
position. The position tag carries the map, so this is map-local. -/
def livingEntsAt (w : Reg) (p : Pos) : List (ℕ × EntityC) :=
  w.ents.filter (fun pr => pr.2.isAlive ∧ pr.2.pos = some p)

/-- Query `Q.all_of(tags=[IsBlocking, position])`. -/
def blockingEntsAt (w : Reg) (p : Pos) : List (ℕ × EntityC) :=
  w.ents.filter (fun pr => pr.2.isBlocking ∧ pr.2.pos = some p)

/-- Query `Q.all_of(tags=[IsItem, position])`. -/
def itemEntsAt (w : Reg) (p : Pos) : List (ℕ × EntityC) :=
  w.ents.filter (fun pr => pr.2.isItem ∧ pr.2.pos = some p)

/-- Query `Q.all_of(tags=[IsPlayer])`. -/
def playerEnts (w : Reg) : List (ℕ × EntityC) :=
  w.ents.filter (fun pr => pr.2.isPlayer)

/-- Modelled from the spec: `game/ui/messages.py` is not under `src/`.
§4.N: `add_message(registry, text, fg)` appends, or increments the counter
on the tail when the tail has the same text and color. The log is stored
newest-first, so the tail is the head of the list. -/
def addMessage (w : Reg) (text fg : String) : Reg :=
  match w.messages with
  | m :: rest =>
    if m.text = text ∧ m.fg = fg then
      { w with messages := { m with count := m.count + 1 } :: rest }
    else
      { w with messages := ⟨text, fg, 1⟩ :: m :: rest }
  | [] => { w with messages := [⟨text, fg, 1⟩] }

/-- `entity.components.pop(DelayedAction, None)`. -/
def popDelayed (w : Reg) (i : ℕ) : Reg :=
  modifyEnt w i (fun e => { e with delayed := none })

/-- `entity.components[DelayedAction] = DelayedAction(action)`. -/
def setDelayed (w : Reg) (i : ℕ) (a : ActionT) : Reg :=
  modifyEnt w i (fun e => { e with delayed := some a })

/-! ## Field of view (`actor_tools.update_fov`) -/

/-- The ghost-maintenance phase of `actor_tools.update_fov`: remove ghosts
on tiles visible both before and after, and spawn a ghost (copying
`Position`, `Graphic`, `Name`) for every non-ghost entity with `Position`
and `Graphic` on this map whose tile just left visibility. -/
def ghostMaintain (w : Reg) (mapId : ℕ) (oldVisible newVisible : ℤ → ℤ → Bool) : Reg :=
  let nowInvisible := fun x y => oldVisible x y && !(newVisible x y)
  let allVisible := fun x y => oldVisible x y && newVisible x y
  -- Remove visible ghosts
  let w2 := { w with ents := w.ents.filter (fun pr =>
    !(pr.2.isGhost && (match pr.2.pos with
      | some q => decide (q.map = mapId) && allVisible q.x q.y
      | none => false))) }
  -- Add ghosts for entities going out of view
  let leaving := w2.ents.filter (fun pr =>
    !pr.2.isGhost && (match pr.2.pos, pr.2.graphic with
      | some q, some _ => decide (q.map = mapId) && nowInvisible q.x q.y
      | _, _ => false))
  leaving.foldl (fun acc pr =>
    (spawnEnt acc { pos := pr.2.pos, graphic := pr.2.graphic,
                    name := pr.2.name, isGhost := true }).2) w2

/-- `actor_tools.update_fov(actor, clear)`: recompute `VisibleTiles` with the
shadow-cast algorithm (or zero it when `clear`), merge `MemoryTiles` with
`np.where(new_visible, tiles, memory)`, then maintain the ghost entities.
The source asserts `IsPlayer in actor.tags`; lookups that would raise in
Python leave the registry unchanged. -/
def updateFov (w : Reg) (i : ℕ) (clear : Bool) : Reg :=
  match getPos w i with
  | none => w
  | some p =>
    match getMapC w p.map with
    | none => w
    | some m =>
      let transparency := fun x y => w.tileTransparent (m.tiles x y)
      let oldVisible := m.visible
      let newVisible := if clear then (fun _ _ => false) else w.fovAlg transparency (p.x, p.y)
      let memoryNew := fun x y => if newVisible x y then m.tiles x y else m.memory x y
      let w1 := setMapC w { m with visible := newVisible, memory := memoryNew }
      ghostMaintain w1 p.map oldVisible newVisible

/-! ## Combat engine (`combat/combat.py`) -/

/-- `combat_types.py` `AttackData`. -/
structure AttackData where
  damageType : DmgType
  damageAmount : ℤ
deriving DecidableEq

/-- `combat.get_resistance_level`: first matching entry of the defender's
`Resistances` (default none). -/
def getResistanceLevel (w : Reg) (i : ℕ) (dt : DmgType) : ResLevel :=
  match getEnt w i with
  | none => .nores
  | some e =>
    match e.resistances.find? (fun r => r.damage_type = dt) with
    | some r => r.resistance
    | none => .nores

/-- `combat.get_defense`: `Defense` (default 0) plus the `DefenseBonus` of
every entity whose `Affecting` relation targets the actor. -/
def getDefenseW (w : Reg) (i : ℕ) : ℤ :=
  (w.ents.filter (fun pr => pr.2.defenseBonus.isSome ∧ pr.2.affecting = some i)).foldl
    (fun acc pr => acc + pr.2.defenseBonus.getD 0)
    (((getEnt w i).bind (fun e => e.defense)).getD 0)

/-- `combat.get_attack`: roll the actor's `Attack` dice (default `"0d1"`)
plus a roll of the `PowerBonus` dice of every entity whose `Affecting`
relation targets the actor. -/
def getAttackW (w : Reg) (i : ℕ) : ℤ × Reg :=
  let dice := ((getEnt w i).bind (fun e => e.attack)).getD (0, 1)
  let first := diceRoll dice.1 dice.2 w.rng
  let bonuses := w.ents.filter (fun pr => pr.2.powerBonus.isSome ∧ pr.2.affecting = some i)
  let total := bonuses.foldl (fun (acc : ℤ × Rng) pr =>
    let d := pr.2.powerBonus.getD (0, 1)
    let rolled := diceRoll d.1 d.2 acc.2
    (acc.1 + rolled.1, rolled.2)) first
  (total.1, { w with rng := total.2 })

/-- `components.py` `on_hp_changed` hook: assign `HP := newHp`; if the value
changed, is ≤ 0 and the entity is not the player, roll the loot drop.
The loot leaf is modelled from the spec (`spawn_item` / `procgen` are not
under `src/`; §4.H step 7): with probability `LootDropChance` pick an item
template (pick abstracted to one RNG draw) and spawn an item entity on the
death tile. -/
def setHpHook (w : Reg) (i : ℕ) (newHp : ℤ) : Reg :=
  match getEnt w i with
  | none => w
  | some e =>
    let w1 := modifyEnt w i (fun e0 => { e0 with hp := some newHp })
    if e.hp = some newHp then w1
    else if newHp ≤ 0 ∧ e.isPlayer = false then
      let drawn := rngRandom w1.rng
      let w2 := { w1 with rng := drawn.2 }
      if e.lootDropChance.getD 0 < drawn.1 then w2
      else
        let pick := rngNext 100 w2.rng
        let w3 := { w2 with rng := pick.2 }
        (spawnEnt w3 { name := some "dropped loot", isItem := true, pos := e.pos }).2
    else w1

/-- `combat.heal` at registry level: the guarded clamp of `heal`, with the
`HP` assignment running the component-change hook. -/
def healE (w : Reg) (i : ℕ) (amount : ℤ) : ℤ × Reg :=
  match getEnt w i with
  | none => (0, w)
  | some e =>
    match e.hp, e.maxHp with
    | some oldHp, some mh =>
      let newHp := min (oldHp + amount) mh
      (newHp - oldHp, setHpHook w i newHp)
    | _, _ => (0, w)

/-- `combat.poison` at registry level: the guarded clamp of `poison`, with
the `HP` assignment running the component-change hook. -/
def poisonE (w : Reg) (i : ℕ) (amount : ℤ) : ℤ × Reg :=
  match getEnt w i with
  | none => (0, w)
  | some e =>
    match e.hp, e.maxHp with
    | some oldHp, some _ =>
      let newHp := max (oldHp - amount) 0
      (oldHp - newHp, setHpHook w i newHp)
    | _, _ => (0, w)

/-- `combat.die`: death message, XP award to `blame`, remains glyph and
name, drop `AI`, discard `IsBlocking` and `IsAlive`. -/
def die (w : Reg) (i : ℕ) (blame : Option ℕ) : Reg :=
  match getEnt w i with
  | none => w
  | some e =>
    let ename := e.name.getD ""
    let w1 := if e.isPlayer then addMessage w "You died!" "player_die"
              else addMessage w (ename ++ " is dead!") "enemy_die"
    let w2 :=
      match blame with
      | some b =>
        match getEnt w1 b with
        | none => w1
        | some be =>
          let reward := e.rewardXp.getD 0
          let w2a := modifyEnt w1 b (fun be0 => { be0 with xp := some (be0.xp.getD 0 + reward) })
          addMessage w2a (be.name.getD "" ++ " gains " ++ toString reward ++ " experience points.") "white"
      | none => w1
    modifyEnt w2 i (fun e0 => { e0 with
      graphic := some ⟨37, (191, 0, 0)⟩
      name := some ("remains of " ++ e0.name.getD "")
      hasAI := false
      aiActions := []
      isBlocking := false
      isAlive := false })

/-- `combat.apply_damage`: `HP -= damage` (through the hook), then `die`
when the result is ≤ 0. -/
def applyDamage (w : Reg) (i : ℕ) (damage : ℤ) (blame : ℕ) : Reg :=
  match getHp w i with
  | none => w
  | some old =>
    let w1 := setHpHook w i (old - damage)
    if old - damage ≤ 0 then die w1 i (some blame) else w1

/-- The resistance multipliers of `combat.perform_attack`:
`WEAK: *= 1.5`, `MODERATE: *= .66`, `HIGH: *= .33` (float literals replaced
by exact rationals); `IMMUNE`/`HEALED` return before this point. -/
def resistanceScaled (damage : ℚ) : ResLevel → ℚ
  | .weak => damage * (3 / 2)
  | .moderate => damage * (66 / 100)
  | .high => damage * (33 / 100)
  | _ => damage

/-- The defense-mitigation line of `combat.perform_attack`:
`int(max(1, damage * .25, damage - defense))`. -/
def mitigate (damage : ℚ) (defense : ℤ) : ℤ :=
  pyInt (max 1 (max (damage * (1 / 4)) (damage - (defense : ℚ))))

/-- The body of `combat.perform_attack` after the to-hit roll was not a 1,
taking the post-crit damage: resistance handling, defense mitigation,
message, `apply_damage`. -/
def performAttackHit (w : Reg) (attacker defender : ℕ) (attackDesc attackColor : String)
    (damage0 : ℚ) (isCrit : Bool) (dt : DmgType) : Reg :=
  match getResistanceLevel w defender dt with
  | .immune => addMessage w (attackDesc ++ " but it is immune to this damage!") attackColor
  | .healed =>
    let res := healE w defender (pyInt (damage0 * (33 / 100)))
    addMessage res.2 (attackDesc ++ " but it healed for " ++ toString res.1 ++ " hp!") attackColor
  | lvl =>
    let damage := resistanceScaled damage0 lvl
    let dmg := mitigate damage (getDefenseW w defender)
    let w1 :=
      if isCrit then addMessage w (attackDesc ++ " and crits for " ++ toString dmg ++ " hit points!") attackColor
      else addMessage w (attackDesc ++ " for " ++ toString dmg ++ " hit points.") attackColor
    applyDamage w1 defender dmg attacker

/-- `combat.perform_attack`: d20 to-hit (1 misses, 20 crits and doubles the
damage), then the hit body. -/
def performAttack (w0 : Reg) (attacker defender : ℕ) (atk : AttackData) : Reg :=
  let rolled := diceRoll 1 20 w0.rng
  let toHit := rolled.1
  let w := { w0 with rng := rolled.2 }
  let isCrit := toHit = 20
  let attackColor :=
    if ((getEnt w attacker).map (fun e => e.isPlayer)).getD false then "player_atk" else "enemy_atk"
  let aname := ((getEnt w attacker).bind (fun e => e.name)).getD ""
  let dname := ((getEnt w defender).bind (fun e => e.name)).getD ""
  let attackDesc := aname ++ " attacks " ++ dname
  if toHit = 1 then addMessage w (attackDesc ++ " but missed.") attackColor
  else
    let damage : ℚ := if isCrit then (atk.damageAmount : ℚ) * 2 else (atk.damageAmount : ℚ)
    performAttackHit w attacker defender attackDesc attackColor damage isCrit atk.damageType

/-- `combat.melee_damage`: roll the attack and perform a PHYSICAL attack.
The equipment-effect loop and the `ON_ATTACK` trait-spawner loop that follow
in the source (`combat.py` lines 209-225) are commented out: nothing else
happens. -/
def meleeDamage (w : Reg) (attacker target : ℕ) : Reg :=
  let rolled := getAttackW w attacker
  performAttack rolled.2 attacker target ⟨.physical, rolled.1⟩

/-- Query `Q.all_of(components=[Effect], tags=[IsEffect],
relations=[(Affecting, entity)])`, as a list of effect-entity ids. -/
def effectsAffecting (w : Reg) (i : ℕ) : List ℕ :=
  (w.ents.filter (fun pr => pr.2.isEffect ∧ pr.2.effectComp.isSome ∧ pr.2.affecting = some i)).map
    (fun pr => pr.1)

/-! ## Effect ticks (`effects.py`, `effect.py`) -/

/-- `effects.py` `affect(entity)`: returns `(consumed, updated effect state,
updated registry)`. `Healing` heals once and is consumed; `Regeneration`
heals and persists; `Poisoned` poisons while `duration > 0`, decrements it,
and is consumed once the duration is spent. -/
def effectAffect (v : EffectVar) (w : Reg) (target : ℕ) : Bool × EffectVar × Reg :=
  let tname := ((getEnt w target).bind (fun e => e.name)).getD "?"
  match v with
  | .healing amount =>
    let res := healE w target amount
    let w2 := if res.1 ≠ 0 then
        addMessage res.2 (tname ++ " recovers " ++ toString res.1 ++ " HP.") "health_recovered"
      else res.2
    (true, v, w2)
  | .regeneration amount =>
    let res := healE w target amount
    let w2 := if res.1 ≠ 0 then
        addMessage res.2 (tname ++ " recovers " ++ toString res.1 ++ " HP.") "health_recovered"
      else res.2
    (false, v, w2)
  | .poisoned amount duration =>
    if 0 < duration then
      let res := poisonE w target amount
      let w2 := if res.1 ≠ 0 then
          addMessage res.2 (tname ++ " took " ++ toString res.1 ++ " poison damage.") "status_effect_applied"
        else res.2
      (duration - 1 ≤ 0, .poisoned amount (duration - 1), w2)
    else (duration ≤ 0, v, w)

/-- The effect loop shared by the turn functions: enumerate the effects
affecting the entity, call `affect` on each, store the updated effect state
and detach-and-destroy the consumed ones
(`effect.remove_effect_from_entity`). -/
def tickEffects (w : Reg) (i : ℕ) : Reg :=
  (effectsAffecting w i).foldl (fun acc eid =>
    match (getEnt acc eid).bind (fun e => e.effectComp) with
    | none => acc
    | some v =>
      let res := effectAffect v acc i
      let acc2 := modifyEnt res.2.2 eid (fun e => { e with effectComp := some res.2.1 })
      if res.1 then removeEnt (modifyEnt acc2 eid (fun e => { e with affecting := none })) eid
      else acc2) w

/-! ## Action results and action performs (`actions.py`) -/

/-- The state-machine states the scheduler can return (`states.py`). -/
inductive GState
  | inGame
  | levelUpS
  | other (tag : ℕ)
deriving DecidableEq

/-- Modelled from the spec: `game/action.py` is not under `src/`. §4.J:
`Result ∈ {Success(message?), Impossible(reason), Poll(state)}` (an empty
message is no message). The extra `err` constructor marks paths on which the
Python source raises an uncaught exception (failed tuple unpack, `KeyError`);
those paths are unreachable under the hypotheses of the theorems below. -/
inductive ActionResult
  | success (message : String)
  | impossible (reason : String)
  | poll (state : GState)
  | err (info : String)
deriving DecidableEq

/-- `actions.Move.get_action_state`: in bounds, walkable tile, no blocking
entity. -/
def moveGetActionState (w : Reg) (i : ℕ) (d : ℤ × ℤ) : ActionResult :=
  match getPos w i with
  | none => .err "KeyError: Position"
  | some p =>
    let newPos := p.add d
    match getMapC w newPos.map with
    | none => .err "KeyError: map components"
    | some m =>
      if 0 ≤ newPos.x ∧ newPos.x < m.width ∧ 0 ≤ newPos.y ∧ newPos.y < m.height then
        let tileIndex := m.tiles newPos.x newPos.y
        if w.tileWalkCost tileIndex = 0 then
          .impossible ("Blocked by " ++ w.tileName tileIndex ++ ".")
        else if blockingEntsAt w newPos ≠ [] then
          .impossible "Something is in the way."
        else .success ""
      else .impossible "Out of bounds."

/-- `actions.Move.__call__`: `(0, 0)` waits; otherwise check
`get_action_state` and apply the position change. The entry assertion
`-1 ≤ dx, dy ≤ 1` is a source invariant on callers. -/
def performMove (w : Reg) (i : ℕ) (d : ℤ × ℤ) : ActionResult × Reg :=
  if d = (0, 0) then (.success "", w)
  else
    match moveGetActionState w i d with
    | .impossible r => (.impossible r, w)
    | .err s => (.err s, w)
    | _ =>
      match getPos w i with
      | none => (.err "KeyError: Position", w)
      | some p => (.success "", modifyEnt w i (fun e => { e with pos := some (p.add d) }))

/-- `actions.Melee.__call__`: both the player query and the
living-entity-at-target query must unpack to exactly one entity, else the
caught `ValueError` yields Impossible; on success run `melee_damage`. -/
def performMelee (w : Reg) (i : ℕ) (d : ℤ × ℤ) : ActionResult × Reg :=
  match getPos w i with
  | none => (.err "KeyError: Position", w)
  | some p =>
    let newPos := p.add d
    match playerEnts w, livingEntsAt w newPos with
    | [_], [t] => (.success "", meleeDamage w i t.1)
    | _, _ => (.impossible "Nothing there to attack.", w)

/-- `actions.PickupItem.__call__` with the inventory leaf modelled from the
spec (`items/item_tools.py` is not under `src/`; §4.J: "if any item at
position → add to inventory; else Impossible"): the first item at the
actor's position moves into the inventory (`IsIn → actor`, ground
`Position` removed). -/
def performPickup (w : Reg) (i : ℕ) : ActionResult × Reg :=
  match getPos w i with
  | none => (.err "KeyError: Position", w)
  | some p =>
    match itemEntsAt w p with
    | [] => (.impossible "There is nothing here to pick up.", w)
    | item :: _ =>
      (.success "", modifyEnt w item.1 (fun e => { e with pos := none, carriedBy := some i }))

/-- Stairs entities at a position carrying the requested direction tag. -/
def stairsAt (w : Reg) (p : Pos) (down : Bool) : List (ℕ × EntityC) :=
  w.ents.filter (fun pr =>
    (if down then pr.2.isDownStairs else pr.2.isUpStairs) ∧ pr.2.pos = some p)

/-- `actions.MoveLevel.__call__`: clear the FOV, resolve the destination map
(`map_tools.get_map` is not under `src/`; modelled from the spec §4.G as a
lookup of the already-built map), find the unique reverse stair there, log
the message and place the actor on it. -/
def performMoveLevel (w : Reg) (i : ℕ) (destMap : ℕ) (exitDown : Bool) (message : String) :
    ActionResult × Reg :=
  let w1 := updateFov w i true
  match getMapC w1 destMap with
  | none => (.err "missing destination map", w1)
  | some _ =>
    let dest := w1.ents.filter (fun pr =>
      (if exitDown then pr.2.isDownStairs else pr.2.isUpStairs) &&
        (match pr.2.pos with | some q => decide (q.map = destMap) | none => false))
    match dest with
    | [st] =>
      let w2 := addMessage w1 message "white"
      match st.2.pos with
      | some q => (.success "", modifyEnt w2 i (fun e => { e with pos := some q }))
      | none => (.err "stairs without position", w2)
    | _ => (.err "destination stairs not unique", w1)

/-- `actions.TakeStairs.__call__`: stairs with the matching direction tag at
the actor's position, requiring a `MapKey`, then `MoveLevel`. -/
def performTakeStairs (w : Reg) (i : ℕ) (down : Bool) : ActionResult × Reg :=
  match getPos w i with
  | none => (.err "KeyError: Position", w)
  | some p =>
    match stairsAt w p down with
    | [] =>
      let dirName := if down then "down" else "up"
      (.impossible ("There are no " ++ dirName ++ "ward stairs here!"), w)
    | [st] =>
      match st.2.mapKey with
      | none => (.impossible "You can not leave yet.", w)
      | some mk =>
        let dirDesc := if down then "descend" else "ascend"
        performMoveLevel w i mk (!down) ("You " ++ dirDesc ++ " the stairs.")
    | _ => (.err "stairs unpack not unique", w)

/-- Perform an action on an entity (`action(entity)` dispatch). -/
def performActionT (w : Reg) (i : ℕ) : ActionT → ActionResult × Reg
  | .waitA _ => (.success "", w)
  | .move dx dy _ => performMove w i (dx, dy)
  | .melee dx dy _ => performMelee w i (dx, dy)
  | .pickupItem _ => performPickup w i
  | .takeStairs down _ => performTakeStairs w i down

/-- `actions.Bump.__call__`: `(0, 0)` resolves to `Wait()`; a living entity
on the target tile of the actor's map resolves to `Melee(direction)`;
otherwise `Move(direction)`. The source's extra `relations=[(IsIn, map_)]`
filter is implied because the position tag carries the map. -/
def bumpResolve (w : Reg) (i : ℕ) (d : ℤ × ℤ) : ActionT :=
  if d = (0, 0) then .waitA DEFAULT_ACTION_COST
  else
    match getPos w i with
    | none => .waitA DEFAULT_ACTION_COST
    | some p =>
      if livingEntsAt w (p.add d) ≠ [] then .melee d.1 d.2 DEFAULT_ACTION_COST
      else .move d.1 d.2 DEFAULT_ACTION_COST

/-! ## Scheduler (`action_tools.py`, `states.py`) -/

/-- `get_adjusted_action_cost` read through the registry. -/
def adjustedCostW (w : Reg) (i : ℕ) (a : ActionT) : ℤ :=
  match getEnt w i with
  | none => a.cost
  | some e => getAdjustedActionCost e a

/-- `update_entity_energy` applied to the stored entity. -/
def updateEntityEnergyW (w : Reg) (i : ℕ) (amount : ℤ) : Reg :=
  modifyEnt w i (fun e => updateEntityEnergy e amount)

/-- `update_entity_energy(entity, get_entity_speed(entity))`: the per-turn
refill. -/
def refillSpeed (w : Reg) (i : ℕ) : Reg :=
  match getEnt w i with
  | none => w
  | some e => updateEntityEnergyW w i (getEntitySpeed e)

/-- The `while available_energy >= adjusted_cost` loop of
`states.process_enemy_turn`: successive `AI.get_action` results are the
entity's action stream; each iteration performs the action, debits the
stored `Energy` and the local counter, and marks `performed`. Returns the
registry, the remaining local energy and the `performed` flag. -/
def processEnemyTurnLoop (w : Reg) (i : ℕ) (acts : List ActionT) (available : ℤ)
    (performed : Bool) : Reg × ℤ × Bool :=
  match acts with
  | [] => (w, available, performed)
  | a :: rest =>
    let cost := adjustedCostW w i a
    if cost ≤ available then
      let w1 := (performActionT w i a).2
      let w2 := updateEntityEnergyW w1 i (-cost)
      processEnemyTurnLoop w2 i rest (available - cost) true
    else (w, available, performed)

/-- `states.process_enemy_turn`: run the action loop from the stored
`Energy`, refill by `Speed`, then tick effects if any action was
performed. -/
def processEnemyTurn (w : Reg) (i : ℕ) : Reg :=
  match getEnt w i with
  | none => w
  | some e =>
    let res := processEnemyTurnLoop w i e.aiActions (getEntityEnergy e) false
    let w1 := refillSpeed res.1 i
    if res.2.2 then tickEffects w1 i else w1

/-- `action_tools.handle_enemy_turns`: process every living `AI`-carrying
entity on the player's map. -/
def handleEnemyTurns (w : Reg) (pid : ℕ) : Reg :=
  match getPos w pid with
  | none => w
  | some p =>
    let targets := (w.ents.filter (fun pr => pr.2.hasAI && pr.2.isAlive &&
      (match pr.2.pos with | some q => decide (q.map = p.map) | none => false))).map
        (fun pr => pr.1)
    targets.foldl (fun acc eid => processEnemyTurn acc eid) w

/-- `states.process_player_turn` (the keyboard `InGame.update` path): reuse
any `DelayedAction`, else the key-derived action (`inputAction`; the input
layer is external). Returns `(still the players turn, registry)`.
This version *discards* the action's result: an action whose perform
returns Impossible is still debited and still ends the player segment. -/
def statesProcessPlayerTurn (w0 : Reg) (pid : ℕ) (inputAction : Option ActionT) :
    Bool × Reg :=
  match getEnt w0 pid with
  | none => (true, w0)
  | some entity =>
    let actionQ :=
      match entity.delayed with
      | some a => some a
      | none => inputAction
    match actionQ with
    | none => (true, w0)
    | some action =>
      let availableEnergy := getEntityEnergy entity
      let adjustedCost := getAdjustedActionCost entity action
      if adjustedCost ≤ availableEnergy then
        let w1 := (performActionT w0 pid action).2
        let w2 := updateEntityEnergyW w1 pid (-adjustedCost)
        let available2 := availableEnergy - adjustedCost
        let w3 := popDelayed w2 pid
        if 0 < available2 then (true, w3)
        else
          let w4 := refillSpeed w3 pid
          (false, tickEffects w4 pid)
      else
        let w2 := if 0 ≤ availableEnergy then setDelayed w0 pid action else w0
        (false, refillSpeed w2 pid)

/-- The common tail of `action_tools.do_player_action`: refill by `Speed`,
tick effects if an action was performed, advance the enemies, refresh the
FOV, and enter the level-up state when `can_level_up`. -/
def playerTurnFinish (enemyTurns : Reg → Reg) (w : Reg) (pid : ℕ) (performed : Bool) :
    GState × Reg :=
  let w1 := refillSpeed w pid
  let w2 := if performed then tickEffects w1 pid else w1
  let w3 := enemyTurns w2
  let w4 := updateFov w3 pid false
  if ((getEnt w4 pid).map canLevelUp).getD false then (.levelUpS, w4) else (.inGame, w4)

/-- `action_tools.do_player_action` (the refund-on-Impossible path, used
e.g. by the item-selection state): guard the energy, perform the action,
refresh the FOV, then dispatch on the result — Success debits and clears the
`DelayedAction`; Poll returns its state; Impossible logs the reason, clears
the `DelayedAction` and returns to `InGame` without the turn tail.
`enemyTurns` abstracts `handle_enemy_turns` (instantiate it with
`handleEnemyTurns`). The dead player and the too-little-energy branches
follow the source. -/
def doPlayerAction (enemyTurns : Reg → Reg) (w0 : Reg) (pid : ℕ) (action : ActionT) :
    GState × Reg :=
  match getEnt w0 pid with
  | none => (.inGame, w0)
  | some player =>
    if player.hp.getD 0 ≤ 0 then (.inGame, w0)
    else
      let availableEnergy := getEntityEnergy player
      let adjustedCost := getAdjustedActionCost player action
      if adjustedCost ≤ availableEnergy then
        let res := performActionT w0 pid action
        let w1 := updateFov res.2 pid false
        match res.1 with
        | .poll s => (s, w1)
        | .err _ => (.inGame, w0)
        | .impossible reason =>
          (.inGame, popDelayed (addMessage w1 reason "impossible") pid)
        | .success msg =>
          let w2 := if msg ≠ "" then addMessage w1 msg "white" else w1
          let w3 := updateEntityEnergyW w2 pid (-adjustedCost)
          let available2 := availableEnergy - adjustedCost
          let w4 := popDelayed w3 pid
          if 0 < available2 then (.inGame, w4)
          else playerTurnFinish enemyTurns w4 pid true
      else
        let w1 := if 0 ≤ availableEnergy then setDelayed w0 pid action else w0
        playerTurnFinish enemyTurns w1 pid false

/-! ## Helper predicates for the theorems -/

/-- Every component, tag and relation of the two entity records except `HP`
agrees. -/
def sameExceptHp (a b : EntityC) : Prop :=
  a.name = b.name ∧ a.maxHp = b.maxHp ∧ a.xp = b.xp ∧ a.level = b.level ∧
  a.rewardXp = b.rewardXp ∧ a.conC = b.conC ∧ a.strC = b.strC ∧ a.dexC = b.dexC ∧
  a.defense = b.defense ∧ a.attack = b.attack ∧ a.energy = b.energy ∧
  a.speedInt = b.speedInt ∧ a.speedFloat = b.speedFloat ∧ a.resistances = b.resistances ∧
  a.defenseBonus = b.defenseBonus ∧ a.powerBonus = b.powerBonus ∧
  a.lootDropChance = b.lootDropChance ∧ a.pos = b.pos ∧ a.graphic = b.graphic ∧
  a.hasAI = b.hasAI ∧ a.aiActions = b.aiActions ∧ a.effectComp = b.effectComp ∧
  a.effectsApplied = b.effectsApplied ∧ a.traitActivation = b.traitActivation ∧
  a.traitTarget = b.traitTarget ∧ a.affecting = b.affecting ∧ a.carriedBy = b.carriedBy ∧
  a.mapKey = b.mapKey ∧ a.delayed = b.delayed ∧ a.isPlayer = b.isPlayer ∧
  a.isAlive = b.isAlive ∧ a.isBlocking = b.isBlocking ∧ a.isItem = b.isItem ∧
  a.isEffect = b.isEffect ∧ a.isEffectSpawner = b.isEffectSpawner ∧
  a.isGhost = b.isGhost ∧ a.isDownStairs = b.isDownStairs ∧ a.isUpStairs = b.isUpStairs

/-! ## Claim C2: adjusted action costs -/

/-- Claim C2 is false as stated: the adjustment truncates (`int`), it does
not round — `int(100 / 1.5) = 66` while `round(100 / 1.5) = 67` — and
`MoveSpeed`/`AttackSpeed` are not independent components: both are the
component key `("Speed", float)`, so setting `MoveSpeed = 0.5` doubles the
`Melee` cost (200 instead of the default-speed 100 the claim predicts). -/
theorem claim_C2_counterexample :
    getAdjustedActionCost { speedFloat := some (3 / 2) } (.move 1 0 100) = 66
    ∧ (66 : ℤ) ≠ round ((100 : ℚ) / (3 / 2))
    ∧ getAdjustedActionCost (setMoveSpeed (1 / 2) {}) (.melee 1 0 100) = 200
    ∧ getAdjustedActionCost ({} : EntityC) (.melee 1 0 100) = 100 := by
  refine ⟨?_, ?_, ?_, ?_⟩
  · show pyInt (((100 : ℤ) : ℚ) / (3 / 2)) = 66
    norm_num [pyInt]
    decide
  · have h : round ((100 : ℚ) / (3 / 2)) = 67 := by norm_num [round_eq]
    omega
  · show pyInt (((100 : ℤ) : ℚ) / (1 / 2)) = 200
    norm_num [pyInt]
  · show pyInt (((100 : ℤ) : ℚ) / 1) = 100
    norm_num [pyInt]

/-- Claim C2, amended: the scheduler debits
`int(cost / MoveSpeed)` (truncation toward zero) for a Move and
`int(cost / AttackSpeed)` for a Melee, the unadjusted cost for every other
action; but `AttackSpeed` and `MoveSpeed` are the *same* per-entity
component — the key `("Speed", float)`, default `1.0` — so `MoveSpeed = 0.5`
doubles the Move *and* the Melee cost, while the integer `Speed` refill
component (key `("Speed", int)`) is unaffected. -/
theorem claim_C2_adjusted_cost_amended (e : EntityC) (dx dy c : ℤ) (v : ℚ) :
    getAdjustedActionCost e (.move dx dy c) = pyInt ((c : ℚ) / getMoveSpeed e)
    ∧ getAdjustedActionCost e (.melee dx dy c) = pyInt ((c : ℚ) / getAttackSpeed e)
    ∧ getMoveSpeed e = getAttackSpeed e
    ∧ setMoveSpeed v e = setAttackSpeed v e
    ∧ (setMoveSpeed v e).speedInt = e.speedInt
    ∧ getEntitySpeed (setMoveSpeed v e) = getEntitySpeed e
    ∧ getMoveSpeed { e with speedFloat := none } = 1
    ∧ getAdjustedActionCost { e with speedFloat := none } (.move dx dy c) = c
    ∧ getAdjustedActionCost (setMoveSpeed (1 / 2) e) (.move dx dy c) = 2 * c
    ∧ getAdjustedActionCost (setMoveSpeed (1 / 2) e) (.melee dx dy c) = 2 * c
    ∧ getAdjustedActionCost e (.waitA c) = c
    ∧ getAdjustedActionCost e (.pickupItem c) = c
    ∧ getAdjustedActionCost e (.takeStairs true c) = c := by
  have hdouble : ((c : ℚ) / (1 / 2)) = ((2 * c : ℤ) : ℚ) := by push_cast; ring
  refine ⟨rfl, rfl, rfl, rfl, rfl, rfl, rfl, ?_, ?_, ?_, rfl, rfl, rfl⟩
  · show pyInt ((c : ℚ) / 1) = c
    rw [div_one, pyInt_intCast]
  · show pyInt ((c : ℚ) / (1 / 2)) = 2 * c
    rw [hdouble, pyInt_intCast]
  · show pyInt ((c : ℚ) / (1 / 2)) = 2 * c
    rw [hdouble, pyInt_intCast]

/-! ## Claim C8: level ups -/

/-- Claim C8: `can_level_up` holds exactly when `XP ≥ 100 + (Level − 1)·150`;
a level-up debits exactly that XP and increments `Level`, and the chosen
gain is exactly one of CON+1 with MaxHP+5 and HP+5 (`do_con_levelup`),
STR+1 (`do_str_levelup`), or DEX+1 (`do_dex_levelup`), with all other
components untouched. -/
theorem claim_C8_level_up (e : EntityC) (c m h s d xv lv : ℤ)
    (hc : e.conC = some c) (hm : e.maxHp = some m) (hh : e.hp = some h)
    (hs : e.strC = some s) (hd : e.dexC = some d)
    (hx : e.xp = some xv) (hl : e.level = some lv)
    (hreq : requiredXpForLevel e ≤ xv) :
    (canLevelUp e = true ↔ 100 + (lv - 1) * 150 ≤ xv)
    ∧ doConLevelup e = { e with
        conC := some (c + 1)
        maxHp := some (m + 5)
        hp := some (h + 5)
        xp := some (xv - (100 + (lv - 1) * 150))
        level := some (lv + 1) }
    ∧ doStrLevelup e = { e with
        strC := some (s + 1)
        xp := some (xv - (100 + (lv - 1) * 150))
        level := some (lv + 1) }
    ∧ doDexLevelup e = { e with
        dexC := some (d + 1)
        xp := some (xv - (100 + (lv - 1) * 150))
        level := some (lv + 1) } := by
  cases e
  simp_all [canLevelUp, requiredXpForLevel, doConLevelup, doStrLevelup, doDexLevelup, levelUp]

/-- The concrete actor of the C8 witness: level 2, 280 XP (threshold 250),
CON 3, MaxHP 30, HP 22, STR 5, DEX 4. -/
def egLevelActor : EntityC :=
  { conC := some 3, maxHp := some 30, hp := some 22, strC := some 5, dexC := some 4, xp := some 280, level := some 2 }

/-- Witness for claim C8 at the concrete actor `egLevelActor`. -/
theorem claim_C8_witness :
    (canLevelUp egLevelActor = true ↔ (100 : ℤ) + (2 - 1) * 150 ≤ 280)
    ∧ doConLevelup egLevelActor = { egLevelActor with
        conC := some (3 + 1)
        maxHp := some (30 + 5)
        hp := some (22 + 5)
        xp := some (280 - (100 + (2 - 1) * 150))
        level := some (2 + 1) }
    ∧ doStrLevelup egLevelActor = { egLevelActor with
        strC := some (5 + 1)
        xp := some (280 - (100 + (2 - 1) * 150))
        level := some (2 + 1) }
    ∧ doDexLevelup egLevelActor = { egLevelActor with
        dexC := some (4 + 1)
        xp := some (280 - (100 + (2 - 1) * 150))
        level := some (2 + 1) } :=
  claim_C8_level_up egLevelActor 3 30 22 5 4 280 2 rfl rfl rfl rfl rfl rfl rfl (by decide)

/-! ## Claims C9 and C10: heal and poison -/

/-- Claim C9: with both `HP` and `MaxHP` present, `heal` clamps to `MaxHP`
and returns the actual amount restored, `poison` clamps to 0 and returns the
actual amount removed, and neither call changes any other component. -/
theorem claim_C9_heal_poison_clamp (e : EntityC) (amount hp0 mhp : ℤ)
    (h1 : e.hp = some hp0) (h2 : e.maxHp = some mhp) :
    (heal e amount).1 = min (hp0 + amount) mhp - hp0
    ∧ (heal e amount).2.hp = some (min (hp0 + amount) mhp)
    ∧ sameExceptHp (heal e amount).2 e
    ∧ (poison e amount).1 = hp0 - max (hp0 - amount) 0
    ∧ (poison e amount).2.hp = some (max (hp0 - amount) 0)
    ∧ sameExceptHp (poison e amount).2 e := by
  simp [heal, poison, h1, h2, sameExceptHp]

/-- Witness for claim C9: HP 5 / MaxHP 20, heal by 100 restores 15, poison
by 100 removes 5. -/
theorem claim_C9_witness :
    (heal { hp := some 5, maxHp := some 20 } 100).1 = min (5 + 100) 20 - 5
    ∧ (heal { hp := some 5, maxHp := some 20 } 100).2.hp = some (min (5 + 100) 20)
    ∧ sameExceptHp (heal { hp := some 5, maxHp := some 20 } 100).2
        { hp := some 5, maxHp := some 20 }
    ∧ (poison { hp := some 5, maxHp := some 20 } 100).1 = 5 - max (5 - 100) 0
    ∧ (poison { hp := some 5, maxHp := some 20 } 100).2.hp = some (max (5 - 100) 0)
    ∧ sameExceptHp (poison { hp := some 5, maxHp := some 20 } 100).2
        { hp := some 5, maxHp := some 20 } :=
  claim_C9_heal_poison_clamp _ 100 5 20 rfl rfl

/-- Claim C10: with `HP` or `MaxHP` missing, `heal` and `poison` return 0
and leave the entity completely unchanged. -/
theorem claim_C10_heal_poison_missing (e : EntityC) (amount : ℤ)
    (h : e.hp = none ∨ e.maxHp = none) :
    heal e amount = (0, e) ∧ poison e amount = (0, e) := by
  rcases h with h | h <;> cases hh : e.hp <;> cases hm : e.maxHp <;>
    simp_all [heal, poison]

/-- Witness for claim C10: an entity with `MaxHP` but no `HP` component. -/
theorem claim_C10_witness :
    heal { maxHp := some 20, name := some "orc" } 7 = (0, { maxHp := some 20, name := some "orc" })
    ∧ poison { maxHp := some 20, name := some "orc" } 7 =
        (0, { maxHp := some 20, name := some "orc" }) :=
  claim_C10_heal_poison_missing _ 7 (Or.inl rfl)

/-! ## Lemmas about registry lookups -/

theorem find?_map_replace (l : List MapC) (i : ℕ) (m0 m : MapC)
    (h : l.find? (fun x => x.id = i) = some m0) (hid : m.id = i) :
    (l.map (fun x => if x.id = m.id then m else x)).find? (fun x => x.id = i) = some m := by
  induction l with
  | nil => simp at h
  | cons hd tl ih =>
    by_cases hhd : hd.id = i
    · have hcase : hd.id = m.id := by rw [hhd, hid]
      simp only [List.map_cons, hcase, if_pos]
      rw [List.find?_cons_of_pos _ (by simpa using hid)]
    · rw [List.find?_cons_of_neg _ (by simpa using hhd)] at h
      simp only [List.map_cons]
      have hc : ¬hd.id = m.id := by
        intro hc
        rw [hc, hid] at hhd
        exact hhd rfl
      rw [if_neg hc, List.find?_cons_of_neg _ (by simpa using hhd)]
      exact ih h

theorem getMapC_id {w : Reg} {i : ℕ} {m : MapC} (h : getMapC w i = some m) : m.id = i := by
  have := List.find?_some h
  simpa using this

theorem getMapC_setMapC_self {w : Reg} {i : ℕ} {m0 : MapC} (m : MapC)
    (h : getMapC w i = some m0) (hid : m.id = i) : getMapC (setMapC w m) i = some m :=
  find?_map_replace w.maps i m0 m h hid

theorem getMapC_eq_of_maps {w1 w2 : Reg} (i : ℕ) (h : w1.maps = w2.maps) :
    getMapC w1 i = getMapC w2 i := by
  unfold getMapC
  rw [h]

theorem maps_ghost_fold (l : List (ℕ × EntityC)) (w : Reg) :
    (l.foldl (fun acc pr =>
      (spawnEnt acc { pos := pr.2.pos, graphic := pr.2.graphic,
                      name := pr.2.name, isGhost := true }).2) w).maps = w.maps := by
  induction l generalizing w with
  | nil => rfl
  | cons hd tl ih => exact ih _

theorem ghostMaintain_maps (w : Reg) (mapId : ℕ) (ov nv : ℤ → ℤ → Bool) :
    (ghostMaintain w mapId ov nv).maps = w.maps := by
  unfold ghostMaintain
  exact maps_ghost_fold _ _

/-! ## Claim C7: update_fov and memory tiles -/

/-- Claim C7: after `update_fov` without `clear`, the map's `MemoryTiles`
grid equals the `Tiles` grid at every coordinate where `VisibleTiles` is
true, and keeps its prior value at every coordinate where `VisibleTiles` is
false. -/
theorem claim_C7_update_fov_memory (w : Reg) (pid : ℕ) (p : Pos) (m : MapC)
    (hpos : getPos w pid = some p) (hm : getMapC w p.map = some m) :
    ∃ mNew, getMapC (updateFov w pid false) p.map = some mNew
      ∧ mNew.tiles = m.tiles
      ∧ (∀ x y, mNew.visible x y = true → mNew.memory x y = m.tiles x y)
      ∧ (∀ x y, mNew.visible x y = false → mNew.memory x y = m.memory x y) := by
  refine ⟨{ m with
      visible := w.fovAlg (fun x y => w.tileTransparent (m.tiles x y)) (p.x, p.y)
      memory := fun x y =>
        if w.fovAlg (fun x y => w.tileTransparent (m.tiles x y)) (p.x, p.y) x y then m.tiles x y
        else m.memory x y }, ?_, rfl, ?_, ?_⟩
  · unfold updateFov
    split
    next heq =>
      rw [hpos] at heq
      exact Option.noConfusion heq
    next p2 heq =>
      rw [hpos] at heq
      injection heq with heq
      subst heq
      split
      next heq2 =>
        rw [hm] at heq2
        exact Option.noConfusion heq2
      next m2 heq2 =>
        rw [hm] at heq2
        injection heq2 with heq2
        subst heq2
        have hid : m.id = p.map := getMapC_id hm
        exact (getMapC_eq_of_maps p.map (ghostMaintain_maps _ _ _ _)).trans
          (getMapC_setMapC_self _ hm hid)
  · intro x y hv
    have hv2 : w.fovAlg (fun x y => w.tileTransparent (m.tiles x y)) (p.x, p.y) x y = true := hv
    show (if w.fovAlg (fun x y => w.tileTransparent (m.tiles x y)) (p.x, p.y) x y then m.tiles x y
      else m.memory x y) = m.tiles x y
    rw [if_pos hv2]
  · intro x y hv
    have hv2 : w.fovAlg (fun x y => w.tileTransparent (m.tiles x y)) (p.x, p.y) x y = false := hv
    show (if w.fovAlg (fun x y => w.tileTransparent (m.tiles x y)) (p.x, p.y) x y then m.tiles x y
      else m.memory x y) = m.memory x y
    rw [if_neg (by simp [hv2])]

/-- Witness world: a 3×3 map (tile 0 walkable floor, tile 1 wall at (2, 1)),
no previous visibility. -/
def egMap : MapC :=
  { id := 0, height := 3, width := 3
    tiles := fun x y => if x = 2 ∧ y = 1 then 1 else 0
    visible := fun _ _ => false
    memory := fun _ _ => 0 }

/-- Witness player: id 1 at (1, 1), 10/10 HP, Energy 100, Speed 10. -/
def egPlayer : EntityC :=
  { name := some "player", hp := some 10, maxHp := some 10, energy := some 100
    speedInt := some 10, pos := some ⟨1, 1, 0⟩, isPlayer := true, isAlive := true
    isBlocking := true, graphic := some ⟨64, (255, 255, 255)⟩ }

/-- Witness world with only the player, an always-empty FOV algorithm and an
empty RNG stream. -/
def egWorld : Reg :=
  { ents := [(1, egPlayer)]
    maps := [egMap]
    messages := []
    rng := ⟨[]⟩
    fovAlg := fun _ _ => fun _ _ => false
    tileWalkCost := fun t => if t = 0 then 1 else 0
    tileTransparent := fun t => t = 0
    tileName := fun _ => "wall"
    nextId := 2 }

/-- Witness for claim C7 on the concrete world `egWorld`. -/
theorem claim_C7_witness :
    ∃ mNew, getMapC (updateFov egWorld 1 false) (Pos.mk 1 1 0).map = some mNew
      ∧ mNew.tiles = egMap.tiles
      ∧ (∀ x y, mNew.visible x y = true → mNew.memory x y = egMap.tiles x y)
      ∧ (∀ x y, mNew.visible x y = false → mNew.memory x y = egMap.memory x y) :=
  claim_C7_update_fov_memory egWorld 1 ⟨1, 1, 0⟩ egMap rfl rfl

/-! ## Claim C6: bump dispatch -/

/-- Claim C6: performing the action `Bump(d)` resolves to produces exactly
the same world delta as performing `Melee(d)` when the target tile holds a
living entity of the actor's map, exactly the same delta as `Move(d)` when
it does not, and `d = (0, 0)` acts as `Wait`. -/
theorem claim_C6_bump_dispatch (w : Reg) (i : ℕ) (e : EntityC) (p : Pos) (d : ℤ × ℤ)
    (he : getEnt w i = some e) (hp : e.pos = some p) :
    (d = (0, 0) →
      performActionT w i (bumpResolve w i d) = performActionT w i (.waitA DEFAULT_ACTION_COST))
    ∧ (d ≠ (0, 0) → livingEntsAt w (p.add d) ≠ [] →
      performActionT w i (bumpResolve w i d) =
        performActionT w i (.melee d.1 d.2 DEFAULT_ACTION_COST))
    ∧ (d ≠ (0, 0) → livingEntsAt w (p.add d) = [] →
      performActionT w i (bumpResolve w i d) =
        performActionT w i (.move d.1 d.2 DEFAULT_ACTION_COST)) := by
  have hgp : getPos w i = some p := by simp [getPos, he, hp]
  refine ⟨?_, ?_, ?_⟩
  · intro h0
    unfold bumpResolve
    rw [if_pos h0]
  · intro hd hl
    unfold bumpResolve
    rw [if_neg hd, hgp]
    show performActionT w i
      (if livingEntsAt w (p.add d) ≠ [] then ActionT.melee d.1 d.2 DEFAULT_ACTION_COST
       else ActionT.move d.1 d.2 DEFAULT_ACTION_COST) = _
    rw [if_pos hl]
  · intro hd hl
    unfold bumpResolve
    rw [if_neg hd, hgp]
    show performActionT w i
      (if livingEntsAt w (p.add d) ≠ [] then ActionT.melee d.1 d.2 DEFAULT_ACTION_COST
       else ActionT.move d.1 d.2 DEFAULT_ACTION_COST) = _
    rw [if_neg (by simp [hl])]

/-- Witness rat for claim C6: a living entity on the tile east of the
player. -/
def egRat : EntityC :=
  { name := some "rat", hp := some 4, maxHp := some 4, pos := some ⟨2, 1, 0⟩
    isAlive := true, isBlocking := true }

/-- Witness world for claim C6: the player at (1, 1) and a living rat at
(2, 1). -/
def egWorldRat : Reg := { egWorld with ents := [(1, egPlayer), (2, egRat)] }

/-- Witness for claim C6: bumping east into the rat's tile produces exactly
the Melee delta. -/
theorem claim_C6_witness :
    performActionT egWorldRat 1 (bumpResolve egWorldRat 1 (1, 0)) =
      performActionT egWorldRat 1 (.melee 1 0 DEFAULT_ACTION_COST) :=
  (claim_C6_bump_dispatch egWorldRat 1 egPlayer ⟨1, 1, 0⟩ (1, 0) rfl rfl).2.1
    (by decide) (by decide)

/-! ## Preservation of `Energy` by the action performs

No code path of the action library writes the `Energy` component (or the
`IsGhost` tag) of any entity: only the scheduler debits and refills energy.
`entView` tracks the `Energy` slot and the ghost flag of an entity through
the world-mutating functions. -/

/-- The `Energy` component and ghost flag of the entity `j`. -/
def entView (w : Reg) (j : ℕ) : Option (Option ℤ × Bool) :=
  (getEnt w j).map (fun e => (e.energy, e.isGhost))

theorem getEnt_eq_of_ents {w1 w2 : Reg} (j : ℕ) (h : w1.ents = w2.ents) :
    getEnt w1 j = getEnt w2 j := by
  unfold getEnt
  rw [h]

theorem entView_eq_of_ents {w1 w2 : Reg} (j : ℕ) (h : w1.ents = w2.ents) :
    entView w1 j = entView w2 j := by
  unfold entView
  rw [getEnt_eq_of_ents j h]

theorem ents_addMessage (w : Reg) (t c : String) : (addMessage w t c).ents = w.ents := by
  unfold addMessage
  split
  · split <;> rfl
  · rfl

theorem getEnt_modifyEnt (w : Reg) (i j : ℕ) (f : EntityC → EntityC) :
    getEnt (modifyEnt w i f) j = if j = i then (getEnt w j).map f else getEnt w j := by
  unfold getEnt modifyEnt
  simp only []
  induction w.ents with
  | nil => by_cases h : j = i <;> simp [h]
  | cons hd tl ih =>
    simp only [List.map_cons]
    by_cases hi : hd.1 = i
    · rw [if_pos hi]
      by_cases hj : hd.1 = j
      · have hji : j = i := by omega
        rw [List.find?_cons_of_pos _ (by simpa using hj),
          List.find?_cons_of_pos _ (by simpa using hj), if_pos hji]
        rfl
      · have hji : ¬j = i := by omega
        rw [List.find?_cons_of_neg _ (by simpa using hj),
          List.find?_cons_of_neg _ (by simpa using hj)]
        rw [if_neg hji] at ih ⊢
        exact ih
    · rw [if_neg hi]
      by_cases hj : hd.1 = j
      · have hji : ¬j = i := by omega
        rw [List.find?_cons_of_pos _ (by simpa using hj),
          List.find?_cons_of_pos _ (by simpa using hj), if_neg hji]
      · rw [List.find?_cons_of_neg _ (by simpa using hj),
          List.find?_cons_of_neg _ (by simpa using hj)]
        exact ih

theorem entView_modifyEnt (w : Reg) (i j : ℕ) (f : EntityC → EntityC)
    (hf : ∀ e, (f e).energy = e.energy ∧ (f e).isGhost = e.isGhost) :
    entView (modifyEnt w i f) j = entView w j := by
  unfold entView
  rw [getEnt_modifyEnt]
  by_cases h : j = i
  · rw [if_pos h]
    cases getEnt w j with
    | none => rfl
    | some e => simp [(hf e).1, (hf e).2]
  · rw [if_neg h]

theorem entView_modifyEnt_keep (w : Reg) (i j : ℕ) (f : EntityC → EntityC)
    (v : Option ℤ × Bool) (h : entView w j = some v)
    (hf : ∀ e, (f e).energy = e.energy ∧ (f e).isGhost = e.isGhost) :
    entView (modifyEnt w i f) j = some v := by
  rw [entView_modifyEnt w i j f hf]
  exact h

theorem getEnt_spawnEnt (w : Reg) (x : EntityC) (j : ℕ) (pr : EntityC)
    (h : getEnt w j = some pr) : getEnt (spawnEnt w x).2 j = some pr := by
  unfold getEnt spawnEnt at *
  simp only []
  cases hf : w.ents.find? (fun pr0 => pr0.1 = j) with
  | none => rw [hf] at h; exact Option.noConfusion h
  | some pr0 =>
    rw [hf] at h
    rw [List.find?_append, hf]
    exact h

theorem entView_spawnEnt (w : Reg) (x : EntityC) (j : ℕ) (v : Option ℤ × Bool)
    (h : entView w j = some v) : entView (spawnEnt w x).2 j = some v := by
  unfold entView at *
  cases he : getEnt w j with
  | none => rw [he] at h; exact Option.noConfusion h
  | some e =>
    rw [he] at h
    rw [getEnt_spawnEnt w x j e he]
    exact h

theorem find?_filter_keep (l : List (ℕ × EntityC)) (q : ℕ × EntityC → Bool) (j : ℕ)
    (pr0 : ℕ × EntityC) (h : l.find? (fun pr => pr.1 = j) = some pr0) (hq : q pr0 = true) :
    (l.filter q).find? (fun pr => pr.1 = j) = some pr0 := by
  induction l with
  | nil => simp at h
  | cons hd tl ih =>
    by_cases hj : hd.1 = j
    · rw [List.find?_cons_of_pos _ (by simpa using hj)] at h
      injection h with h
      subst h
      rw [List.filter_cons_of_pos hq, List.find?_cons_of_pos _ (by simpa using hj)]
    · rw [List.find?_cons_of_neg _ (by simpa using hj)] at h
      by_cases hqh : q hd = true
      · rw [List.filter_cons_of_pos hqh, List.find?_cons_of_neg _ (by simpa using hj)]
        exact ih h
      · rw [List.filter_cons_of_neg hqh]
        exact ih h

theorem entView_ghost_fold (l : List (ℕ × EntityC)) (w : Reg) (j : ℕ) (v : Option ℤ × Bool)
    (h : entView w j = some v) :
    entView (l.foldl (fun acc pr =>
      (spawnEnt acc { pos := pr.2.pos, graphic := pr.2.graphic,
                      name := pr.2.name, isGhost := true }).2) w) j = some v := by
  induction l generalizing w with
  | nil => exact h
  | cons hd tl ih => exact ih _ (entView_spawnEnt _ _ _ _ h)

theorem entView_ghostMaintain (w : Reg) (mapId : ℕ) (ov nv : ℤ → ℤ → Bool) (j : ℕ)
    (en : Option ℤ) (h : entView w j = some (en, false)) :
    entView (ghostMaintain w mapId ov nv) j = some (en, false) := by
  unfold ghostMaintain
  apply entView_ghost_fold
  -- the removal filter keeps the non-ghost entry of j
  unfold entView at h ⊢
  unfold getEnt at h ⊢
  simp only []
  cases hf : w.ents.find? (fun pr => pr.1 = j) with
  | none => rw [hf] at h; exact Option.noConfusion h
  | some pr0 =>
    rw [hf] at h
    injection h with h
    have hg : pr0.2.isGhost = false := by
      have := congrArg Prod.snd h
      simpa using this
    rw [find?_filter_keep _ _ j pr0 hf (by simp [hg])]
    simpa using h

theorem ents_setMapC (w : Reg) (m : MapC) : (setMapC w m).ents = w.ents := rfl

theorem entView_updateFov (w : Reg) (i : ℕ) (c : Bool) (j : ℕ) (en : Option ℤ)
    (h : entView w j = some (en, false)) :
    entView (updateFov w i c) j = some (en, false) := by
  unfold updateFov
  split
  · exact h
  split
  · exact h
  apply entView_ghostMaintain
  rw [entView_eq_of_ents j (ents_setMapC w _)]
  exact h

theorem entView_setHpHook (w : Reg) (i : ℕ) (nh : ℤ) (j : ℕ) (en : Option ℤ)
    (h : entView w j = some (en, false)) :
    entView (setHpHook w i nh) j = some (en, false) := by
  unfold setHpHook
  split
  · exact h
  next e _ =>
    have h1 : entView (modifyEnt w i fun e0 => { e0 with hp := some nh }) j
        = some (en, false) := by
      apply entView_modifyEnt_keep
      · exact h
      · exact fun e0 => ⟨rfl, rfl⟩
    split
    · exact h1
    split
    · simp only []
      split
      · rw [entView_eq_of_ents j rfl]
        exact h1
      · apply entView_spawnEnt
        rw [entView_eq_of_ents j rfl]
        exact h1
    · exact h1

theorem entView_healE (w : Reg) (i : ℕ) (amount : ℤ) (j : ℕ) (en : Option ℤ)
    (h : entView w j = some (en, false)) :
    entView (healE w i amount).2 j = some (en, false) := by
  unfold healE
  split
  · exact h
  split
  · exact entView_setHpHook _ _ _ _ _ h
  · exact h

theorem entView_poisonE (w : Reg) (i : ℕ) (amount : ℤ) (j : ℕ) (en : Option ℤ)
    (h : entView w j = some (en, false)) :
    entView (poisonE w i amount).2 j = some (en, false) := by
  unfold poisonE
  split
  · exact h
  split
  · exact entView_setHpHook _ _ _ _ _ h
  · exact h

theorem entView_addMessage (w : Reg) (t c : String) (j : ℕ) :
    entView (addMessage w t c) j = entView w j :=
  entView_eq_of_ents j (ents_addMessage w t c)

theorem entView_die (w : Reg) (i : ℕ) (blame : Option ℕ) (j : ℕ) (en : Option ℤ)
    (h : entView w j = some (en, false)) :
    entView (die w i blame) j = some (en, false) := by
  unfold die
  split
  · exact h
  next e _ =>
    have hmsg : ∀ w2 : Reg, entView w2 j = some (en, false) →
        ∀ t c, entView (addMessage w2 t c) j = some (en, false) := by
      intro w2 h2 t c
      rw [entView_addMessage]
      exact h2
    have h1 : entView (if e.isPlayer = true then addMessage w "You died!" "player_die"
        else addMessage w (e.name.getD "" ++ " is dead!") "enemy_die") j
        = some (en, false) := by
      split <;> exact hmsg _ h _ _
    apply entView_modifyEnt_keep
    · split
      · split
        · exact h1
        · apply hmsg
          apply entView_modifyEnt_keep
          · exact h1
          · exact fun e0 => ⟨rfl, rfl⟩
      · exact h1
    · exact fun e0 => ⟨rfl, rfl⟩

theorem entView_applyDamage (w : Reg) (i : ℕ) (damage : ℤ) (blame : ℕ) (j : ℕ)
    (en : Option ℤ) (h : entView w j = some (en, false)) :
    entView (applyDamage w i damage blame) j = some (en, false) := by
  unfold applyDamage
  split
  · exact h
  split
  · exact entView_die _ _ _ _ _ (entView_setHpHook _ _ _ _ _ h)
  · exact entView_setHpHook _ _ _ _ _ h

theorem entView_performAttackHit (w : Reg) (a d : ℕ) (desc color : String) (dmg : ℚ)
    (crit : Bool) (dt : DmgType) (j : ℕ) (en : Option ℤ)
    (h : entView w j = some (en, false)) :
    entView (performAttackHit w a d desc color dmg crit dt) j = some (en, false) := by
  unfold performAttackHit
  split
  · rw [entView_addMessage]; exact h
  · rw [entView_addMessage]; exact entView_healE _ _ _ _ _ h
  · apply entView_applyDamage
    split <;> (rw [entView_addMessage]; exact h)

theorem entView_performAttack (w : Reg) (a d : ℕ) (atk : AttackData) (j : ℕ)
    (en : Option ℤ) (h : entView w j = some (en, false)) :
    entView (performAttack w a d atk) j = some (en, false) := by
  unfold performAttack
  simp only []
  have hrng : entView { w with rng := (diceRoll 1 20 w.rng).2 } j = some (en, false) := by
    rw [entView_eq_of_ents j rfl]
    exact h
  split
  · rw [entView_addMessage]; exact hrng
  · exact entView_performAttackHit _ _ _ _ _ _ _ _ _ _ hrng

theorem entView_meleeDamage (w : Reg) (a t : ℕ) (j : ℕ) (en : Option ℤ)
    (h : entView w j = some (en, false)) :
    entView (meleeDamage w a t) j = some (en, false) := by
  unfold meleeDamage
  apply entView_performAttack
  unfold getAttackW
  simp only []
  rw [entView_eq_of_ents j rfl]
  exact h

theorem entView_performActionT (w : Reg) (i : ℕ) (a : ActionT) (j : ℕ) (en : Option ℤ)
    (h : entView w j = some (en, false)) :
    entView (performActionT w i a).2 j = some (en, false) := by
  cases a with
  | waitA c => exact h
  | move dx dy c =>
    show entView (performMove w i (dx, dy)).2 j = some (en, false)
    unfold performMove
    split
    · exact h
    split
    · exact h
    · exact h
    · split
      · exact h
      · apply entView_modifyEnt_keep
        · exact h
        · exact fun e0 => ⟨rfl, rfl⟩
  | melee dx dy c =>
    show entView (performMelee w i (dx, dy)).2 j = some (en, false)
    unfold performMelee
    split
    · exact h
    · simp only []
      split
      · exact entView_meleeDamage _ _ _ _ _ h
      · exact h
  | pickupItem c =>
    show entView (performPickup w i).2 j = some (en, false)
    unfold performPickup
    split
    · exact h
    split
    · exact h
    · apply entView_modifyEnt_keep
      · exact h
      · exact fun e0 => ⟨rfl, rfl⟩
  | takeStairs down c =>
    show entView (performTakeStairs w i down).2 j = some (en, false)
    unfold performTakeStairs
    split
    · exact h
    split
    · exact h
    · split
      · exact h
      · unfold performMoveLevel
        have hfov : entView (updateFov w i true) j = some (en, false) :=
          entView_updateFov _ _ _ _ _ h
        simp only []
        split
        · exact hfov
        split
        next st2 _ =>
          split
          · apply entView_modifyEnt_keep
            · rw [entView_addMessage]
              exact hfov
            · exact fun e0 => ⟨rfl, rfl⟩
          · rw [entView_addMessage]
            exact hfov
        · exact hfov
    · exact h

/-! ## Claim C5: the energy guard -/

theorem entView_inv {w : Reg} {j : ℕ} {en : Option ℤ} {g : Bool}
    (hv : entView w j = some (en, g)) :
    ∃ e1, getEnt w j = some e1 ∧ e1.energy = en ∧ e1.isGhost = g := by
  unfold entView at hv
  cases hge : getEnt w j with
  | none => rw [hge] at hv; exact Option.noConfusion hv
  | some e1 =>
    rw [hge] at hv
    injection hv with hv
    exact ⟨e1, rfl, congrArg Prod.fst hv, congrArg Prod.snd hv⟩

/-- Claim C5: an action is performed only when the actor's Energy covers its
adjusted cost, so energy stays non-negative through every debit.
Conjunct 1: the enemy loop's running energy stays non-negative.
Conjunct 2: the stored `Energy` component tracks the loop's running energy
(no action perform writes `Energy`).
Conjunct 3: a player whose energy is below the adjusted cost performs
nothing and is not debited — the turn only stores the `DelayedAction` and
refills.
Conjunct 4: a player debit is exactly the adjusted cost, leaving the
guarded, non-negative remainder in the `Energy` component. -/
theorem claim_C5_energy_guard :
    (∀ w i acts available performed, 0 ≤ available →
      0 ≤ (processEnemyTurnLoop w i acts available performed).2.1)
    ∧ (∀ w i acts available performed e, getEnt w i = some e → e.isGhost = false →
        e.energy = some available →
        getEnergyW (processEnemyTurnLoop w i acts available performed).1 i =
          some (processEnemyTurnLoop w i acts available performed).2.1)
    ∧ (∀ w0 pid a e, getEnt w0 pid = some e → e.delayed = none →
        getEntityEnergy e < getAdjustedActionCost e a →
        (statesProcessPlayerTurn w0 pid (some a)).2 =
          refillSpeed (if 0 ≤ getEntityEnergy e then setDelayed w0 pid a else w0) pid)
    ∧ (∀ w0 pid a e, getEnt w0 pid = some e → e.isGhost = false → e.delayed = none →
        getAdjustedActionCost e a ≤ getEntityEnergy e →
        0 < getEntityEnergy e - getAdjustedActionCost e a →
        getEnergyW (statesProcessPlayerTurn w0 pid (some a)).2 pid =
          some (getEntityEnergy e - getAdjustedActionCost e a)) := by
  refine ⟨?_, ?_, ?_, ?_⟩
  · intro w i acts
    induction acts generalizing w with
    | nil => intro available performed h; exact h
    | cons a rest ih =>
      intro available performed h
      unfold processEnemyTurnLoop
      simp only []
      split
      next hguard => exact ih _ _ _ (by omega)
      next hguard => exact h
  · intro w i acts
    induction acts generalizing w with
    | nil =>
      intro available performed e he hg hEn
      show getEnergyW w i = some available
      unfold getEnergyW
      rw [he]
      exact hEn
    | cons a rest ih =>
      intro available performed e he hg hEn
      unfold processEnemyTurnLoop
      simp only []
      split
      next hguard =>
        have hv : entView w i = some (some available, false) := by
          simp [entView, he, hg, hEn]
        have hv1 := entView_performActionT w i a i (some available) hv
        obtain ⟨e1, he1, hEn1, hGh1⟩ := entView_inv hv1
        have he2 : getEnt (updateEntityEnergyW (performActionT w i a).2 i
            (-(adjustedCostW w i a))) i
            = some (updateEntityEnergy e1 (-(adjustedCostW w i a))) := by
          unfold updateEntityEnergyW
          rw [getEnt_modifyEnt, if_pos rfl, he1]
          rfl
        exact ih _ (available - adjustedCostW w i a) true _ he2
          (by simpa [updateEntityEnergy] using hGh1)
          (by simp [updateEntityEnergy, hEn1, sub_eq_add_neg])
      next hguard =>
        show getEnergyW w i = some available
        unfold getEnergyW
        rw [he]
        exact hEn
  · intro w0 pid a e he hdel hlt
    unfold statesProcessPlayerTurn
    split
    next heq => rw [he] at heq; exact Option.noConfusion heq
    next e2 heq =>
      rw [he] at heq
      injection heq with heq
      subst heq
      split
      next a0 heqA =>
        rw [hdel] at heqA
        exact Option.noConfusion heqA
      next heqA =>
        simp only []
        rw [if_neg (by omega)]
  · intro w0 pid a e he hg hdel hge hpos
    unfold statesProcessPlayerTurn
    split
    next heq => rw [he] at heq; exact Option.noConfusion heq
    next e2 heq =>
      rw [he] at heq
      injection heq with heq
      subst heq
      split
      next a0 heqA =>
        rw [hdel] at heqA
        exact Option.noConfusion heqA
      next heqA =>
        simp only []
        rw [if_pos hge, if_pos hpos]
        have hv : entView w0 pid = some (e.energy, false) := by
          simp [entView, he, hg]
        have hv1 := entView_performActionT w0 pid a pid e.energy hv
        obtain ⟨e1, he1, hEn1, hGh1⟩ := entView_inv hv1
        show getEnergyW (popDelayed (updateEntityEnergyW (performActionT w0 pid a).2 pid
          (-(getAdjustedActionCost e a))) pid) pid = _
        unfold getEnergyW popDelayed updateEntityEnergyW
        rw [getEnt_modifyEnt, if_pos rfl, getEnt_modifyEnt, if_pos rfl, he1]
        simp [updateEntityEnergy, hEn1, getEntityEnergy, sub_eq_add_neg]

/-- Witness for claim C5 on the concrete world `egWorld` (player energy 100,
speed 10): an empty enemy stream, a 200-cost wait that is deferred, and a
50-cost wait that is debited to the positive remainder 50. -/
theorem claim_C5_witness :
    (0 ≤ (processEnemyTurnLoop egWorld 1 [] 100 false).2.1)
    ∧ getEnergyW (processEnemyTurnLoop egWorld 1 [] 100 false).1 1 =
        some (processEnemyTurnLoop egWorld 1 [] 100 false).2.1
    ∧ (statesProcessPlayerTurn egWorld 1 (some (.waitA 200))).2 =
        refillSpeed (if 0 ≤ getEntityEnergy egPlayer then setDelayed egWorld 1 (.waitA 200)
          else egWorld) 1
    ∧ getEnergyW (statesProcessPlayerTurn egWorld 1 (some (.waitA 50))).2 1 =
        some (getEntityEnergy egPlayer - getAdjustedActionCost egPlayer (.waitA 50)) :=
  ⟨claim_C5_energy_guard.1 egWorld 1 [] 100 false (by decide),
   claim_C5_energy_guard.2.1 egWorld 1 [] 100 false egPlayer rfl rfl rfl,
   claim_C5_energy_guard.2.2.1 egWorld 1 (.waitA 200) egPlayer rfl rfl (by decide),
   claim_C5_energy_guard.2.2.2 egWorld 1 (.waitA 50) egPlayer rfl rfl rfl (by decide) (by decide)⟩

/-! ## Tracking HP through an attack -/

theorem getHp_eq_of_ents {w1 w2 : Reg} (j : ℕ) (h : w1.ents = w2.ents) :
    getHp w1 j = getHp w2 j := by
  unfold getHp
  rw [getEnt_eq_of_ents j h]

theorem getHp_addMessage (w : Reg) (t c : String) (j : ℕ) :
    getHp (addMessage w t c) j = getHp w j :=
  getHp_eq_of_ents j (ents_addMessage w t c)

theorem getHp_modifyEnt_keep (w : Reg) (i j : ℕ) (f : EntityC → EntityC)
    (hf : ∀ e, (f e).hp = e.hp) : getHp (modifyEnt w i f) j = getHp w j := by
  unfold getHp
  rw [getEnt_modifyEnt]
  by_cases h : j = i
  · rw [if_pos h]
    cases getEnt w j with
    | none => rfl
    | some e => simp [hf e]
  · rw [if_neg h]

theorem getHp_spawnEnt (w : Reg) (x : EntityC) (j : ℕ) (e : EntityC)
    (h : getEnt w j = some e) : getHp (spawnEnt w x).2 j = getHp w j := by
  unfold getHp
  rw [getEnt_spawnEnt w x j e h, h]

theorem getHp_setHpHook (w : Reg) (i : ℕ) (nh : ℤ) (e : EntityC)
    (he : getEnt w i = some e) : getHp (setHpHook w i nh) i = some nh := by
  have hmod : getHp (modifyEnt w i fun e0 => { e0 with hp := some nh }) i = some nh := by
    unfold getHp
    rw [getEnt_modifyEnt, if_pos rfl, he]
    rfl
  have hent : getEnt (modifyEnt w i fun e0 => { e0 with hp := some nh }) i
      = some { e with hp := some nh } := by
    rw [getEnt_modifyEnt, if_pos rfl, he]
    rfl
  unfold setHpHook
  split
  next heq => rw [he] at heq; exact Option.noConfusion heq
  next e2 heq =>
    rw [he] at heq
    injection heq with heq
    subst heq
    split
    · exact hmod
    split
    · simp only []
      split
      · rw [getHp_eq_of_ents i rfl]
        exact hmod
      · rw [getHp_spawnEnt]
        · rw [getHp_eq_of_ents i rfl]
          exact hmod
        · exact { e with hp := some nh }
        · exact hent
    · exact hmod

theorem getHp_die (w : Reg) (i : ℕ) (blame : Option ℕ) (j : ℕ) :
    getHp (die w i blame) j = getHp w j := by
  unfold die
  split
  · rfl
  next e _ =>
    simp only []
    rw [getHp_modifyEnt_keep]
    · have h1 : getHp (if e.isPlayer = true then addMessage w "You died!" "player_die"
          else addMessage w (e.name.getD "" ++ " is dead!") "enemy_die") j = getHp w j := by
        split <;> rw [getHp_addMessage]
      split
      · split
        · exact h1
        · rw [getHp_addMessage, getHp_modifyEnt_keep]
          · exact h1
          · exact fun e0 => rfl
      · exact h1
    · exact fun e0 => rfl

theorem getHp_applyDamage (w : Reg) (i : ℕ) (dmg : ℤ) (blame : ℕ) (e : EntityC) (hp0 : ℤ)
    (he : getEnt w i = some e) (hhp : e.hp = some hp0) :
    getHp (applyDamage w i dmg blame) i = some (hp0 - dmg) := by
  have hget : getHp w i = some hp0 := by
    unfold getHp
    rw [he]
    exact hhp
  unfold applyDamage
  rw [hget]
  simp only []
  split
  · rw [getHp_die]
    exact getHp_setHpHook w i _ e he
  · exact getHp_setHpHook w i _ e he

/-! ## Claim C4: defense mitigation -/

/-- The mitigated damage is never below 1 (the floor in the source's
`max`). -/
theorem mitigate_ge_one (q : ℚ) (dfn : ℤ) : 1 ≤ mitigate q dfn :=
  one_le_pyInt_of_one_le (le_max_left _ _)

theorem pyInt_le_pyInt_of_nonneg_right {q r : ℚ} (hr : 0 ≤ r) (h : q ≤ r) :
    pyInt q ≤ pyInt r := by
  rcases le_or_lt 0 q with hq | hq
  · exact pyInt_mono_of_nonneg hq h
  · have h1 : pyInt q ≤ 0 := by
      have hnum : q.num ≤ 0 := le_of_lt (Rat.num_neg.mpr hq)
      have : (0 : ℤ) ≤ (-q.num).tdiv q.den :=
        Int.tdiv_nonneg (by omega) (by exact_mod_cast Nat.zero_le q.den)
      rw [Int.neg_tdiv] at this
      unfold pyInt
      omega
    have h2 : 0 ≤ pyInt r := by
      unfold pyInt
      exact Int.tdiv_nonneg (Rat.num_nonneg.mpr hr) (by exact_mod_cast Nat.zero_le r.den)
    omega

/-- The mitigated damage is never below the truncation of a quarter of the
incoming damage. -/
theorem mitigate_ge_quarter (q : ℚ) (dfn : ℤ) : pyInt (q * (1 / 4)) ≤ mitigate q dfn :=
  pyInt_le_pyInt_of_nonneg_right
    (le_trans zero_le_one (le_max_left _ _))
    (le_trans (le_max_left _ _) (le_max_right _ _))

/-- The HP delta of the post-to-hit body of `perform_attack` when the
resistance is neither IMMUNE nor HEALED: the defender's HP drops by exactly
the mitigated damage. -/
theorem getHp_performAttackHit (w : Reg) (aid did : ℕ) (desc color : String) (dmg : ℚ)
    (crit : Bool) (dt : DmgType) (d : EntityC) (hp0 : ℤ)
    (hd : getEnt w did = some d) (hhp : d.hp = some hp0)
    (hres1 : getResistanceLevel w did dt ≠ .immune)
    (hres2 : getResistanceLevel w did dt ≠ .healed) :
    getHp (performAttackHit w aid did desc color dmg crit dt) did =
      some (hp0 - mitigate (resistanceScaled dmg (getResistanceLevel w did dt))
        (getDefenseW w did)) := by
  unfold performAttackHit
  split
  next heq => exact absurd heq hres1
  next heq => exact absurd heq hres2
  next lvl hni hnh =>
    simp only []
    apply getHp_applyDamage _ did _ aid d hp0 _ hhp
    split <;> (rw [getEnt_eq_of_ents did (ents_addMessage _ _ _)]; exact hd)

/-- Claim C4, amended: for every melee attack reaching the mitigation step
(to-hit roll not 1, resistance neither IMMUNE nor HEALED), the damage
applied to the defender is `int(max(1, damage·0.25, damage − defense))` —
the `max` truncated by Python's `int()` — which is never below 1 and never
below the truncation of `damage·0.25` (but can be below `damage·0.25`
itself, and differs from the claim's un-truncated `max`). -/
theorem claim_C4_mitigation_amended (w : Reg) (aid did : ℕ) (atk : AttackData) (t : ℤ)
    (rng2 : Rng) (d : EntityC) (hp0 : ℤ)
    (hroll : diceRoll 1 20 w.rng = (t, rng2)) (ht : t ≠ 1)
    (hd : getEnt w did = some d) (hhp : d.hp = some hp0)
    (hres1 : getResistanceLevel w did atk.damageType ≠ .immune)
    (hres2 : getResistanceLevel w did atk.damageType ≠ .healed) :
    getHp (performAttack w aid did atk) did =
      some (hp0 - mitigate
        (resistanceScaled (if t = 20 then (atk.damageAmount : ℚ) * 2 else (atk.damageAmount : ℚ))
          (getResistanceLevel w did atk.damageType))
        (getDefenseW w did))
    ∧ (∀ q dfn, 1 ≤ mitigate q dfn)
    ∧ (∀ q dfn, pyInt (q * (1 / 4)) ≤ mitigate q dfn) := by
  refine ⟨?_, fun q dfn => mitigate_ge_one q dfn, fun q dfn => mitigate_ge_quarter q dfn⟩
  unfold performAttack
  simp only []
  rw [hroll]
  simp only []
  rw [if_neg ht]
  exact getHp_performAttackHit { w with rng := rng2 } aid did _ _ _ _ atk.damageType
    d hp0 hd hhp hres1 hres2

/-- C4 concrete attacker: a slime with no resistances. -/
def c4Attacker : EntityC := { name := some "slime", isAlive := true }

/-- C4 concrete defender: 10 HP, Defense 4, no resistances. -/
def c4Hero : EntityC :=
  { name := some "hero", hp := some 10, maxHp := some 10, defense := some 4
    isAlive := true, isPlayer := true }

/-- C4 concrete world: the RNG stream makes the to-hit roll a 5 (a plain
hit). -/
def c4w : Reg :=
  { ents := [(1, c4Attacker), (2, c4Hero)], maps := [], messages := [], rng := ⟨[4]⟩
    fovAlg := fun _ _ => fun _ _ => false, tileWalkCost := fun _ => 1
    tileTransparent := fun _ => true, tileName := fun _ => "floor", nextId := 3 }

/-- Claim C4 is false as stated: an attack with damage 5 against defense 4
applies 1 damage (HP 10 → 9), but `max(1, 5·0.25, 5 − 4) = 5/4 ≠ 1`, and the
applied damage 1 is below the quarter `5/4` — the `int()` truncation makes
both the equality and the quarter floor of the claim fail. -/
theorem claim_C4_counterexample :
    getHp (performAttack c4w 1 2 ⟨DmgType.physical, 5⟩) 2 = some 9
    ∧ ((10 : ℚ) - 9 ≠ max 1 (max ((5 : ℚ) * (1 / 4)) ((5 : ℚ) - 4)))
    ∧ ((10 : ℚ) - 9 < (5 : ℚ) * (1 / 4)) := by
  have hq1 : ((5 : ℚ) * (1 / 4)) = 5 / 4 := by ring
  have hq2 : ((5 : ℚ) - 4) = 1 := by norm_num
  refine ⟨?_, ?_, ?_⟩
  case refine_2 =>
    rw [hq1, hq2, max_eq_left (show (1 : ℚ) ≤ 5 / 4 by norm_num),
      max_eq_right (show (1 : ℚ) ≤ 5 / 4 by norm_num)]
    norm_num
  case refine_3 =>
    rw [hq1]
    norm_num
  have h := getHp_performAttackHit { c4w with rng := ⟨[]⟩ } 1 2 "slime attacks hero"
    "enemy_atk" ((5 : ℤ) : ℚ) false DmgType.physical c4Hero 10 rfl rfl
    (by decide) (by decide)
  have hstep : performAttack c4w 1 2 ⟨DmgType.physical, 5⟩ =
      performAttackHit { c4w with rng := ⟨[]⟩ } 1 2 "slime attacks hero" "enemy_atk"
        ((5 : ℤ) : ℚ) false DmgType.physical := rfl
  rw [hstep, h]
  have hres : getResistanceLevel { c4w with rng := (⟨[]⟩ : Rng) } 2 DmgType.physical =
      ResLevel.nores := rfl
  have hdef : getDefenseW { c4w with rng := (⟨[]⟩ : Rng) } 2 = 4 := rfl
  rw [hres, hdef]
  show some (10 - mitigate ((5 : ℤ) : ℚ) 4) = some 9
  have hm : mitigate ((5 : ℤ) : ℚ) 4 = 1 := by
    have h54 : max (1 : ℚ) (max (((5 : ℤ) : ℚ) * (1 / 4)) (((5 : ℤ) : ℚ) - ((4 : ℤ) : ℚ))) =
        5 / 4 := by
      push_cast
      rw [show ((5 : ℚ) * (1 / 4)) = 5 / 4 by ring]
      rw [show ((5 : ℚ) - 4) = 1 by norm_num]
      rw [max_eq_left (show (1 : ℚ) ≤ 5 / 4 by norm_num),
        max_eq_right (show (1 : ℚ) ≤ 5 / 4 by norm_num)]
    unfold mitigate
    rw [h54]
    have hnum : ((5 : ℚ) / 4).num = 5 := by norm_num
    have hden : ((5 : ℚ) / 4).den = 4 := by norm_num
    unfold pyInt
    rw [hnum, hden]
    decide
  rw [hm]
  decide

/-- Witness for the amended claim C4 on the concrete world `c4w`. -/
theorem claim_C4_witness :
    getHp (performAttack c4w 1 2 ⟨DmgType.physical, 5⟩) 2 =
      some (10 - mitigate
        (resistanceScaled (if (5 : ℤ) = 20 then ((5 : ℤ) : ℚ) * 2 else ((5 : ℤ) : ℚ))
          (getResistanceLevel c4w 2 DmgType.physical))
        (getDefenseW c4w 2))
    ∧ (∀ q dfn, 1 ≤ mitigate q dfn)
    ∧ (∀ q dfn, pyInt (q * (1 / 4)) ≤ mitigate q dfn) :=
  claim_C4_mitigation_amended c4w 1 2 ⟨DmgType.physical, 5⟩ 5 ⟨[]⟩ c4Hero 10 rfl
    (by decide) rfl rfl (by decide) (by decide)

/-- C3 concrete defender: the player, 10 HP, no defense, no resistances. -/
def c3Player : EntityC :=
  { name := some "hero", hp := some 10, maxHp := some 10, isAlive := true, isPlayer := true }

/-- C3 concrete attacker: an acid slime with `Attack = "1d4"`. -/
def c3Slime : EntityC := { name := some "acid slime", attack := some (1, 4), isAlive := true }

/-- C3 concrete trait spawner: the acid slime's `ON_ATTACK`/`ENEMY`
effect-spawner entity (as `spawn_actor` instantiates racial traits),
affecting the slime (id 2) and listing the `lesser_poison` template (id 7). -/
def c3Spawner : EntityC :=
  { isEffectSpawner := true, traitActivation := some TActivation.onAttack
    traitTarget := some TTarget.enemyT, affecting := some 2, effectsApplied := [7] }

/-- C3 concrete world: acid slime id 2 (with spawner id 3) melee-attacks
player id 1; the RNG stream rolls attack damage 3 (`1 + 2 % 4`) and then a
plain-hit to-hit roll of 5 (`1 + 4 % 20`). -/
def c3w : Reg :=
  { ents := [(1, c3Player), (2, c3Slime), (3, c3Spawner)], maps := [], messages := []
    rng := ⟨[2, 4]⟩, fovAlg := fun _ _ => fun _ _ => false, tileWalkCost := fun _ => 1
    tileTransparent := fun _ => true, tileName := fun _ => "floor", nextId := 4 }

/-- Claim C3 names a bug in the code: the `ON_ATTACK` trait-spawner loop of
`melee_damage` (combat.py lines 215-225, together with the equipment-effect
loop at 209-213) is commented out, so a hit by an attacker owning an
`ON_ATTACK`/`ENEMY` effect spawner damages the defender (HP 10 → 7) yet
attaches no effect to the defender (nor to the attacker): the acid slime's
poison of the claim never lands. -/
theorem claim_C3_on_attack_spawner_dead :
    getHp (meleeDamage c3w 2 1) 1 = some 7
    ∧ effectsAffecting (meleeDamage c3w 2 1) 1 = []
    ∧ effectsAffecting (meleeDamage c3w 2 1) 2 = []
    ∧ (getEnt c3w 3).map (fun e =>
        (e.isEffectSpawner, e.traitActivation, e.traitTarget, e.affecting, e.effectsApplied))
      = some (true, some TActivation.onAttack, some TTarget.enemyT, some 2, [7]) := by
  have hm : mitigate ((3 : ℤ) : ℚ) 0 = 3 := by
    have h3 : max (1 : ℚ) (max (((3 : ℤ) : ℚ) * (1 / 4)) (((3 : ℤ) : ℚ) - ((0 : ℤ) : ℚ))) =
        3 := by
      push_cast
      rw [show ((3 : ℚ) * (1 / 4)) = 3 / 4 by ring]
      rw [show ((3 : ℚ) - 0) = 3 by norm_num]
      rw [max_eq_right (show (3 : ℚ) / 4 ≤ 3 by norm_num),
        max_eq_right (show (1 : ℚ) ≤ 3 by norm_num)]
    unfold mitigate
    rw [h3]
    have hnum : (3 : ℚ).num = 3 := by norm_num
    have hden : (3 : ℚ).den = 1 := by norm_num
    unfold pyInt
    rw [hnum, hden]
    decide
  have hstep : meleeDamage c3w 2 1 =
      performAttackHit { c3w with rng := ⟨[]⟩ } 2 1 "acid slime attacks hero" "enemy_atk"
        ((3 : ℤ) : ℚ) false DmgType.physical := rfl
  refine ⟨?_, ?_, ?_, rfl⟩
  · rw [hstep]
    show getHp (applyDamage
      (addMessage { c3w with rng := (⟨[]⟩ : Rng) }
        ("acid slime attacks hero" ++ " for " ++ toString (mitigate ((3 : ℤ) : ℚ) 0) ++
          " hit points.") "enemy_atk")
      1 (mitigate ((3 : ℤ) : ℚ) 0) 2) 1 = some 7
    rw [hm]
    decide
  · rw [hstep]
    show effectsAffecting (applyDamage
      (addMessage { c3w with rng := (⟨[]⟩ : Rng) }
        ("acid slime attacks hero" ++ " for " ++ toString (mitigate ((3 : ℤ) : ℚ) 0) ++
          " hit points.") "enemy_atk")
      1 (mitigate ((3 : ℤ) : ℚ) 0) 2) 1 = []
    rw [hm]
    decide
  · rw [hstep]
    show effectsAffecting (applyDamage
      (addMessage { c3w with rng := (⟨[]⟩ : Rng) }
        ("acid slime attacks hero" ++ " for " ++ toString (mitigate ((3 : ℤ) : ℚ) 0) ++
          " hit points.") "enemy_atk")
      1 (mitigate ((3 : ℤ) : ℚ) 0) 2) 2 = []
    rw [hm]
    decide

/-! ## Claim C1: the Impossible refund -/

/-- Every action perform either succeeds, hits an uncaught-exception path, or
leaves the registry untouched: in particular an Impossible result never
mutates the world. -/
theorem perform_result_cases (w : Reg) (i : ℕ) (a : ActionT) :
    (∃ m, (performActionT w i a).1 = ActionResult.success m)
    ∨ (∃ s, (performActionT w i a).1 = ActionResult.err s)
    ∨ (performActionT w i a).2 = w := by
  cases a with
  | waitA c => exact Or.inl ⟨"", rfl⟩
  | move dx dy c =>
    show (∃ m, (performMove w i (dx, dy)).1 = ActionResult.success m)
      ∨ (∃ s, (performMove w i (dx, dy)).1 = ActionResult.err s)
      ∨ (performMove w i (dx, dy)).2 = w
    unfold performMove
    split
    · exact Or.inl ⟨"", rfl⟩
    split
    · exact Or.inr (Or.inr rfl)
    · exact Or.inr (Or.inl ⟨_, rfl⟩)
    · split
      · exact Or.inr (Or.inl ⟨_, rfl⟩)
      · exact Or.inl ⟨"", rfl⟩
  | melee dx dy c =>
    show (∃ m, (performMelee w i (dx, dy)).1 = ActionResult.success m)
      ∨ (∃ s, (performMelee w i (dx, dy)).1 = ActionResult.err s)
      ∨ (performMelee w i (dx, dy)).2 = w
    unfold performMelee
    split
    · exact Or.inr (Or.inl ⟨_, rfl⟩)
    · simp only []
      split
      · exact Or.inl ⟨"", rfl⟩
      · exact Or.inr (Or.inr rfl)
  | pickupItem c =>
    show (∃ m, (performPickup w i).1 = ActionResult.success m)
      ∨ (∃ s, (performPickup w i).1 = ActionResult.err s)
      ∨ (performPickup w i).2 = w
    unfold performPickup
    split
    · exact Or.inr (Or.inl ⟨_, rfl⟩)
    split
    · exact Or.inr (Or.inr rfl)
    · exact Or.inl ⟨"", rfl⟩
  | takeStairs down c =>
    show (∃ m, (performTakeStairs w i down).1 = ActionResult.success m)
      ∨ (∃ s, (performTakeStairs w i down).1 = ActionResult.err s)
      ∨ (performTakeStairs w i down).2 = w
    unfold performTakeStairs
    split
    · exact Or.inr (Or.inl ⟨_, rfl⟩)
    split
    · exact Or.inr (Or.inr rfl)
    · split
      · exact Or.inr (Or.inr rfl)
      · unfold performMoveLevel
        simp only []
        split
        · exact Or.inr (Or.inl ⟨_, rfl⟩)
        split
        next st2 _ =>
          split
          · exact Or.inl ⟨"", rfl⟩
          · exact Or.inr (Or.inl ⟨_, rfl⟩)
        · exact Or.inr (Or.inl ⟨_, rfl⟩)
    · exact Or.inr (Or.inl ⟨_, rfl⟩)

/-- The adjusted cost of a default-cost `Move` for the witness player
(`MoveSpeed` absent, so `int(100 / 1.0) = 100`). -/
theorem egMoveCost : getAdjustedActionCost egPlayer (ActionT.move 1 0 100) = 100 := by
  show pyInt (((100 : ℤ) : ℚ) / 1) = 100
  rw [show (((100 : ℤ) : ℚ) / 1) = (100 : ℚ) by norm_num]
  have hnum : (100 : ℚ).num = 100 := by norm_num
  have hden : (100 : ℚ).den = 1 := by norm_num
  unfold pyInt
  rw [hnum, hden]
  decide

/-- Claim C1 is false on the path the claim's first code source names: the
live keyboard scheduler `states.process_player_turn` discards the action's
result, so a `Move` into the wall — whose perform returns
`Impossible("Blocked by wall.")` — still debits the full 100 Energy
(100 → 0, then the end-of-segment refill leaves 10), and the function
returns `False`, ending the player segment so the enemies take their turns:
the turn is not refunded and the player is not re-prompted. -/
theorem claim_C1_counterexample :
    (performActionT egWorld 1 (ActionT.move 1 0 100)).1 =
      ActionResult.impossible "Blocked by wall."
    ∧ (statesProcessPlayerTurn egWorld 1 (some (ActionT.move 1 0 100))).1 = false
    ∧ getEnergyW (statesProcessPlayerTurn egWorld 1 (some (ActionT.move 1 0 100))).2 1 =
        some 10
    ∧ getEnergyW egWorld 1 = some 100 := by
  refine ⟨rfl, ?_, ?_, rfl⟩
  · unfold statesProcessPlayerTurn
    rw [show getEnt egWorld 1 = some egPlayer from rfl]
    simp only []
    rw [show egPlayer.delayed = none from rfl]
    simp only []
    rw [egMoveCost]
    decide
  · unfold statesProcessPlayerTurn
    rw [show getEnt egWorld 1 = some egPlayer from rfl]
    simp only []
    rw [show egPlayer.delayed = none from rfl]
    simp only []
    rw [egMoveCost]
    decide

/-- Claim C1, amended: the refund behaviour holds on the
`action_tools.do_player_action` pipeline (the claim's second code source,
used by the item-selection states): when the energy-guarded action's perform
returns Impossible, the world only gains the logged reason, loses any
`DelayedAction` and refreshes the FOV — the perform itself left the registry
untouched (`perform_result_cases`), the Energy is not debited and the
enemy-turn handler never runs. The live keyboard path
`states.process_player_turn` instead discards the result
(`claim_C1_counterexample`). -/
theorem claim_C1_impossible_refund_amended (enemyTurns : Reg → Reg) (w : Reg) (pid : ℕ)
    (player : EntityC) (a : ActionT) (r : String)
    (hent : getEnt w pid = some player) (hgh : player.isGhost = false)
    (hhp : 0 < player.hp.getD 0)
    (hcost : getAdjustedActionCost player a ≤ getEntityEnergy player)
    (hres : (performActionT w pid a).1 = ActionResult.impossible r) :
    doPlayerAction enemyTurns w pid a =
      (GState.inGame, popDelayed (addMessage (updateFov w pid false) r "impossible") pid)
    ∧ getEnergyW (doPlayerAction enemyTurns w pid a).2 pid = player.energy := by
  have hw : (performActionT w pid a).2 = w := by
    rcases perform_result_cases w pid a with ⟨m, hm⟩ | ⟨s, hs⟩ | hw0
    · rw [hres] at hm; exact ActionResult.noConfusion hm
    · rw [hres] at hs; exact ActionResult.noConfusion hs
    · exact hw0
  have hmain : doPlayerAction enemyTurns w pid a =
      (GState.inGame, popDelayed (addMessage (updateFov w pid false) r "impossible") pid) := by
    unfold doPlayerAction
    split
    next heq => rw [hent] at heq; exact Option.noConfusion heq
    next p2 heq =>
      rw [hent] at heq
      injection heq with heq
      subst heq
      rw [if_neg (by omega)]
      simp only []
      rw [if_pos hcost]
      rw [hres]
      simp only []
      rw [hw]
  refine ⟨hmain, ?_⟩
  rw [hmain]
  have hv : entView w pid = some (player.energy, false) := by
    simp [entView, hent, hgh]
  have hv1 : entView (updateFov w pid false) pid = some (player.energy, false) :=
    entView_updateFov _ _ _ _ _ hv
  have hv2 : entView (addMessage (updateFov w pid false) r "impossible") pid =
      some (player.energy, false) := by
    rw [entView_addMessage]
    exact hv1
  have hv3 : entView (popDelayed (addMessage (updateFov w pid false) r "impossible") pid) pid =
      some (player.energy, false) := by
    apply entView_modifyEnt_keep
    · exact hv2
    · exact fun e0 => ⟨rfl, rfl⟩
  obtain ⟨e1, he1, hEn1, _⟩ := entView_inv hv3
  show getEnergyW (popDelayed (addMessage (updateFov w pid false) r "impossible") pid) pid =
    player.energy
  unfold getEnergyW
  rw [he1]
  simp [hEn1]

/-- Witness for the amended claim C1 on the concrete world `egWorld`: the
eastward move into the wall is Impossible; `do_player_action` only logs the
reason, clears the delay slot and refreshes the FOV, and the player's Energy
stays 100. -/
theorem claim_C1_witness :
    doPlayerAction (fun w2 => handleEnemyTurns w2 1) egWorld 1 (ActionT.move 1 0 100) =
      (GState.inGame, popDelayed
        (addMessage (updateFov egWorld 1 false) "Blocked by wall." "impossible") 1)
    ∧ getEnergyW (doPlayerAction (fun w2 => handleEnemyTurns w2 1) egWorld 1 (ActionT.move 1 0 100)).2 1 =
        some 100 :=
  claim_C1_impossible_refund_amended (fun w2 => handleEnemyTurns w2 1) egWorld 1 egPlayer
    (ActionT.move 1 0 100) "Blocked by wall." rfl rfl (by decide)
    (by rw [egMoveCost]; decide) rfl

end Rogue
